import Mathlib

/-!
Shallow embedding of the restaurant / queue management server's core logic:
the order lifecycle engine, the split-bill settlement protocol and the queue
ticketing engine, as implemented by the Express routes (routes file) and the
storage layer (server/storage.ts).

Monetary amounts are modelled as integer cents: the schema stores dollar
amounts in `real` columns which the routes read through parseFloat and write
back through Number.toFixed(2); on two-decimal money values toFixed(2) is
the identity, so a dollar amount `d` appears here as the integer `100 * d`
and the arithmetic is exact instead of IEEE double. The $0.01 tolerance of
the split-bill sum check is one cent.

Timestamps (the JavaScript new Date() values) are modelled as natural numbers
supplied explicitly to each operation.
-/

deriving instance DecidableEq for Except

namespace Resto

/-- JavaScript's Math.abs, on a cent amount. -/
def absC (z : ℤ) : ℤ := if z < 0 then -z else z

/-- JavaScript whitespace characters relevant to String.prototype.trim. -/
def isWsChar (c : Char) : Bool :=
  c == ' ' || c == '\t' || c == '\n' || c == '\r'

/-- JavaScript's String.prototype.trim: strip whitespace from both ends. -/
def jsTrim (s : String) : String :=
  String.mk (((s.data.dropWhile isWsChar).reverse.dropWhile isWsChar).reverse)

/-- A restaurant table row (table `tables`). -/
structure RTable where
  id : Nat
  status : String
  deriving Repr, DecidableEq

/-- A menu item row (table `menu_items`); only the fields the modelled
operations read. -/
structure MenuItem where
  id : Nat
  price : ℤ
  deriving Repr, DecidableEq

/-- An order row (table `orders`). -/
structure Order where
  id : Nat
  tableId : Nat
  status : String
  total : ℤ
  deriving Repr, DecidableEq

/-- An order item row (table `order_items`); `startedPreparingAt` is the
kitchen timer anchor stamped on first entry into preparing. -/
structure OrderItem where
  id : Nat
  orderId : Nat
  menuItemId : Nat
  quantity : Nat
  price : ℤ
  status : String
  startedPreparingAt : Option Nat
  deriving Repr, DecidableEq

/-- A payment row (table `payments`); orderId and tableId are nullable in the
schema, hence Option. -/
structure Payment where
  id : Nat
  orderId : Option Nat
  tableId : Option Nat
  amount : ℤ
  method : String
  deriving Repr, DecidableEq

/-- A bill share row (table `bill_shares`). -/
structure BillShare where
  id : Nat
  paymentId : Option Nat
  customerName : String
  amount : ℤ
  paid : Bool
  deriving Repr, DecidableEq

/-- A queue row (table `queues`). -/
structure Queue where
  id : Nat
  organizationId : Nat
  qrCode : String
  status : String
  currentTicket : Nat
  nextTicket : Nat
  avgServiceTime : Nat
  deriving Repr, DecidableEq

/-- A queue ticket row (table `queue_tickets`). -/
structure QueueTicket where
  id : Nat
  queueId : Nat
  ticketNumber : Nat
  status : String
  calledAt : Option Nat
  servedAt : Option Nat
  completedAt : Option Nat
  estimatedWaitMinutes : Nat
  deriving Repr, DecidableEq

/-- Events broadcast over the WebSocket bus; each carries the identifiers the
route puts in its payload. -/
inductive Event where
  | orderCreated (orderId : Nat)
  | orderConfirmed (orderId : Nat)
  | orderItemStatusUpdated (itemId : Nat)
  | orderReady (orderId : Nat)
  | orderItemCancelled (orderId : Nat)
  | paymentProcessed (paymentId orderId tableId : Nat)
  | splitBillCompleted (paymentId orderId tableId : Nat)
  | ticketCreated (ticketId : Nat)
  | ticketCalled (ticketId : Nat)
  | ticketStatusUpdated (ticketId : Nat)
  deriving Repr, DecidableEq

/-- Error outcomes of the routes; constructors mirror the thrown messages and
the 4xx responses. `injectedFault` models a simulated storage failure used to
probe failure semantics. -/
inductive Err where
  | orderNotFound
  | orderItemNotFound
  | itemNotCancellable
  | orderNotConfirmed
  | sharesEmpty
  | shareNameRequired (idx : Nat)
  | shareAmountNotPositive (idx : Nat)
  | sharesTotalMismatch
  | shareNotFound
  | paymentNotFound
  | queueNotFound
  | queueClosed
  | queuePaused
  | ticketNotFound
  | noWaitingTickets
  | injectedFault
  deriving Repr, DecidableEq

/-- The whole persistent state: the database tables plus the log of broadcast
events, plus the id sequence used for inserts. -/
structure DB where
  rtables : List RTable
  menuItems : List MenuItem
  orders : List Order
  orderItems : List OrderItem
  payments : List Payment
  billShares : List BillShare
  queues : List Queue
  queueTickets : List QueueTicket
  events : List Event
  nextId : Nat
  deriving Repr, DecidableEq

/-! ## Primitive store operations

Each models one drizzle query: `find?` is a SELECT ... LIMIT 1, the map-based
updates are UPDATE ... WHERE id = ?, the list appends are INSERT with the id
minted from the shared sequence. -/

def findOrder (db : DB) (oid : Nat) : Option Order :=
  db.orders.find? (fun o => o.id == oid)

def findMenuItem (db : DB) (mid : Nat) : Option MenuItem :=
  db.menuItems.find? (fun m => m.id == mid)

def findRTable (db : DB) (tid : Nat) : Option RTable :=
  db.rtables.find? (fun t => t.id == tid)

def findOrderItem (db : DB) (iid : Nat) : Option OrderItem :=
  db.orderItems.find? (fun it => it.id == iid)

def findPayment (db : DB) (pid : Nat) : Option Payment :=
  db.payments.find? (fun p => p.id == pid)

def findShare (db : DB) (sid : Nat) : Option BillShare :=
  db.billShares.find? (fun s => s.id == sid)

def findQueueByCode (db : DB) (qr : String) : Option Queue :=
  db.queues.find? (fun q => q.qrCode == qr)

def findQueue (db : DB) (qid orgId : Nat) : Option Queue :=
  db.queues.find? (fun q => q.id == qid && q.organizationId == orgId)

def setOrderStatus (db : DB) (oid : Nat) (st : String) : DB :=
  { db with orders :=
      db.orders.map (fun o => if o.id == oid then { o with status := st } else o) }

def setOrderTotal (db : DB) (oid : Nat) (total : ℤ) : DB :=
  { db with orders :=
      db.orders.map (fun o => if o.id == oid then { o with total := total } else o) }

def setTableStatus (db : DB) (tid : Nat) (st : String) : DB :=
  { db with rtables :=
      db.rtables.map (fun t => if t.id == tid then { t with status := st } else t) }

def setSharePaid (db : DB) (sid : Nat) : DB :=
  { db with billShares :=
      db.billShares.map (fun s => if s.id == sid then { s with paid := true } else s) }

def setQueueNextTicket (db : DB) (qid n : Nat) : DB :=
  { db with queues :=
      db.queues.map (fun q => if q.id == qid then { q with nextTicket := n } else q) }

def setQueueCurrentTicket (db : DB) (qid n : Nat) : DB :=
  { db with queues :=
      db.queues.map (fun q => if q.id == qid then { q with currentTicket := n } else q) }

/-- Publish one event on the WebSocket bus (the module-level `broadcast`). -/
def broadcast (db : DB) (e : Event) : DB :=
  { db with events := db.events ++ [e] }

/-- All order items belonging to one order (the `orderItems` relation loaded
by `getOrderById`). -/
def orderItemsOf (db : DB) (oid : Nat) : List OrderItem :=
  db.orderItems.filter (fun it => it.orderId == oid)

/-- The sum the routes compute with reduce((sum, i) => sum + parseFloat(i.price) * i.quantity, 0). -/
def sumItems (l : List OrderItem) : ℤ :=
  (l.map (fun i => (i.quantity : ℤ) * i.price)).sum

/-! ## storage.ts operations -/

/-- DatabaseStorage.updateOrderStatus: unconditional UPDATE of the status
column; returns the updated row when one matched. There is no guard on the
previous status. -/
def updateOrderStatusS (db : DB) (oid : Nat) (st : String) : DB × Option Order :=
  (setOrderStatus db oid st, (findOrder db oid).map (fun o => { o with status := st }))

/-- DatabaseStorage.updateOrderItemStatus: when the new status is
"preparing" it first reads the existing row and adds a startedPreparingAt
stamp to the update data only if the row has none yet; then it updates the
status (and possibly the stamp) on the matching row. -/
def updateOrderItemStatusS (db : DB) (iid : Nat) (st : String) (now : Nat) :
    DB × Option OrderItem :=
  let stamp : Bool :=
    st == "preparing" &&
      (match findOrderItem db iid with
       | some it => it.startedPreparingAt == none
       | none => false)
  let upd : OrderItem → OrderItem := fun it =>
    { it with
      status := st
      startedPreparingAt := if stamp then some now else it.startedPreparingAt }
  ({ db with orderItems :=
      db.orderItems.map (fun it => if it.id == iid then upd it else it) },
   (findOrderItem db iid).map upd)

/-! ## Order routes -/

/-- One line of a submitted cart (`items` entries of POST /api/orders). -/
structure CartLine where
  menuItemId : Nat
  quantity : Nat
  deriving Repr, DecidableEq

/-- storage.createOrder as called by POST /api/orders: INSERT a pending order
with total "0.00". -/
def createOrderRow (db : DB) (tableId : Nat) : DB × Order :=
  let o : Order := { id := db.nextId, tableId := tableId, status := "pending", total := 0 }
  ({ db with orders := db.orders ++ [o], nextId := db.nextId + 1 }, o)

/-- storage.createOrderItem as called by POST /api/orders: INSERT a queued
item with the menu price snapshot. -/
def createOrderItemRow (db : DB) (oid mid qty : Nat) (price : ℤ) : DB :=
  let it : OrderItem :=
    { id := db.nextId
      orderId := oid
      menuItemId := mid
      quantity := qty
      price := price
      status := "queued"
      startedPreparingAt := none }
  { db with orderItems := db.orderItems ++ [it], nextId := db.nextId + 1 }

/-- The item loop of POST /api/orders: look each cart line's menu item up,
silently skip missing ones, insert an item with the snapshot price and
accumulate price × quantity into the running total. -/
def addCartLines (db : DB) (oid : Nat) (lines : List CartLine) (acc : ℤ) : DB × ℤ :=
  match lines with
  | [] => (db, acc)
  | line :: rest =>
    match findMenuItem db line.menuItemId with
    | none => addCartLines db oid rest acc
    | some m =>
      addCartLines (createOrderItemRow db oid line.menuItemId line.quantity m.price)
        oid rest (acc + (line.quantity : ℤ) * m.price)

/-- POST /api/orders: create the pending order, add the items, write the
recomputed total back with toFixed(2), occupy the table and broadcast
order_created. -/
def submitOrder (db : DB) (tableId : Nat) (lines : List CartLine) : DB × Order :=
  let p1 := createOrderRow db tableId
  let p2 := addCartLines p1.1 p1.2.id lines 0
  let db3 := setOrderTotal p2.1 p1.2.id p2.2
  let db4 := setTableStatus db3 tableId "occupied"
  (broadcast db4 (Event.orderCreated p1.2.id), p1.2)

/-- PATCH /api/orders/:id/confirm: one unconditional status update; 404 only
when no order row matched. -/
def confirmOrder (db : DB) (oid : Nat) : DB × Except Err Unit :=
  let p := updateOrderStatusS db oid "confirmed"
  match p.2 with
  | none => (db, Except.error Err.orderNotFound)
  | some o => (broadcast p.1 (Event.orderConfirmed o.id), Except.ok ())

/-- PATCH /api/orders/:orderId/items/:itemId/status: update the item status
(stamping startedPreparingAt on first entry into preparing), broadcast the
item event, and when the new status is "ready" and every item of the order is
ready, delivered or cancelled, broadcast order_ready as well. -/
def advanceItemStatus (db : DB) (orderId itemId : Nat) (st : String) (now : Nat) :
    DB × Except Err Unit :=
  let p := updateOrderItemStatusS db itemId st now
  match p.2 with
  | none => (db, Except.error Err.orderItemNotFound)
  | some _ =>
    let db2 := broadcast p.1 (Event.orderItemStatusUpdated itemId)
    match findOrder p.1 orderId with
    | none => (db2, Except.ok ())
    | some o =>
      if st == "ready" &&
          (orderItemsOf p.1 o.id).all
            (fun i => i.status == "ready" || i.status == "delivered" || i.status == "cancelled")
      then (broadcast db2 (Event.orderReady o.id), Except.ok ())
      else (db2, Except.ok ())

/-- PATCH /api/orders/:orderId/items/:itemId/cancel: refuse unless the item
is queued or pending, set it cancelled, recompute the order total over the
non-cancelled items and broadcast order_item_cancelled. -/
def cancelItem (db : DB) (orderId itemId : Nat) : DB × Except Err Unit :=
  match findOrderItem db itemId with
  | none => (db, Except.error Err.orderItemNotFound)
  | some it =>
    if !(it.status == "queued" || it.status == "pending") then
      (db, Except.error Err.itemNotCancellable)
    else
      let p := updateOrderItemStatusS db itemId "cancelled" 0
      match findOrder p.1 orderId with
      | none => (p.1, Except.ok ())
      | some o =>
        let activeItems := (orderItemsOf p.1 o.id).filter (fun i => !(i.status == "cancelled"))
        let db2 := setOrderTotal p.1 o.id (sumItems activeItems)
        (broadcast db2 (Event.orderItemCancelled o.id), Except.ok ())

/-! ## Payment routes -/

/-- storage.createPayment: INSERT one payment row. -/
def createPaymentRow (db : DB) (oid tid : Option Nat) (amount : ℤ) (method : String) :
    DB × Payment :=
  let p : Payment :=
    { id := db.nextId
      orderId := oid
      tableId := tid
      amount := amount
      method := method }
  ({ db with payments := db.payments ++ [p], nextId := db.nextId + 1 }, p)

/-- POST /api/payments: three separate store calls with no enclosing
transaction — create the payment, then (non-split only) complete the order,
then free the table, then broadcast. The booleans model a storage failure
thrown by the corresponding step; effects of earlier steps stay committed. -/
def recordPayment (db : DB) (oid tid : Nat) (amount : ℤ) (method : String)
    (isSplitBill f1 f2 f3 : Bool) : DB × Except Err Payment :=
  if f1 then (db, Except.error Err.injectedFault)
  else
    let p := createPaymentRow db (some oid) (some tid) amount method
    if isSplitBill then
      (broadcast p.1 (Event.paymentProcessed p.2.id oid tid), Except.ok p.2)
    else if f2 then (p.1, Except.error Err.injectedFault)
    else
      let db2 := setOrderStatus p.1 oid "completed"
      if f3 then (db2, Except.error Err.injectedFault)
      else
        let db3 := setTableStatus db2 tid "free"
        (broadcast db3 (Event.paymentProcessed p.2.id oid tid), Except.ok p.2)

/-! ## Split-bill routes -/

/-- One entry of the `shares` array of POST /api/split-bill. -/
structure ShareInput where
  customerName : String
  amount : ℤ
  deriving Repr, DecidableEq

/-- The shares.map validation loop: reject an empty (or whitespace) customer
name or a non-positive amount, reporting the 1-based index of the first bad
share; keep the trimmed name and the amount. -/
def validateShares : List ShareInput → Nat → Except Err (List ShareInput)
  | [], _ => Except.ok []
  | s :: rest, i =>
    if jsTrim s.customerName == "" then Except.error (Err.shareNameRequired i)
    else if s.amount ≤ 0 then Except.error (Err.shareAmountNotPositive i)
    else
      match validateShares rest (i + 1) with
      | Except.error e => Except.error e
      | Except.ok v =>
        Except.ok ({ customerName := jsTrim s.customerName, amount := s.amount } :: v)

/-- INSERT one bill share per validated entry, unpaid, in order. -/
def insertShares (db : DB) (pid : Nat) : List ShareInput → DB × List BillShare
  | [] => (db, [])
  | s :: rest =>
    let sh : BillShare :=
      { id := db.nextId
        paymentId := some pid
        customerName := s.customerName
        amount := s.amount
        paid := false }
    let p := insertShares
      { db with
        billShares := db.billShares ++ [sh]
        nextId := db.nextId + 1 } pid rest
    (p.1, sh :: p.2)

/-- The body of the db.transaction of POST /api/split-bill: re-read the order,
require it confirmed, validate the shares, compare their sum with the stored
total (tolerance $0.01), then insert the payment (amount := stored total) and
one unpaid share per entry. -/
def createSplitBillBody (db : DB) (orderId tableId : Nat) (method : String)
    (shares : List ShareInput) : Except Err (DB × Payment × List BillShare) :=
  match findOrder db orderId with
  | none => Except.error Err.orderNotFound
  | some o =>
    if !(o.status == "confirmed") then Except.error Err.orderNotConfirmed
    else
      match validateShares shares 1 with
      | Except.error e => Except.error e
      | Except.ok validated =>
        let sharesTotal := (validated.map (fun s => s.amount)).sum
        if absC (sharesTotal - o.total) > 1 then Except.error Err.sharesTotalMismatch
        else
          let p := createPaymentRow db (some orderId) (some tableId) o.total method
          let q := insertShares p.1 p.2.id validated
          Except.ok (q.1, p.2, q.2)

/-- POST /api/split-bill: the empty-array guard, then the transaction; a
throw anywhere in the body rolls every tentative write back. -/
def createSplitBill (db : DB) (orderId tableId : Nat) (method : String)
    (shares : List ShareInput) : DB × Except Err (Payment × List BillShare) :=
  if shares.isEmpty then (db, Except.error Err.sharesEmpty)
  else
    match createSplitBillBody db orderId tableId method shares with
    | Except.error e => (db, Except.error e)
    | Except.ok r => (r.1, Except.ok (r.2.1, r.2.2))

/-- The body of the db.transaction of PATCH /api/bill-shares/:id/paid: set
the share paid, re-read all shares of its payment, and when every one is paid
complete the order, free the table and broadcast split_bill_completed. `inj`
injects a simulated failure after the share update and before the completion
step. -/
def markSharePaidBody (db : DB) (sid : Nat) (inj : Bool) : Except Err DB :=
  match findShare db sid with
  | none => Except.error Err.shareNotFound
  | some sh =>
    match sh.paymentId with
    | none => Except.error Err.shareNotFound
    | some pid =>
      let db1 := setSharePaid db sid
      if inj then Except.error Err.injectedFault
      else
        let allShares := db1.billShares.filter (fun s => s.paymentId == some pid)
        if allShares.all (fun s => s.paid) then
          match findPayment db1 pid with
          | none => Except.error Err.paymentNotFound
          | some pay =>
            match pay.orderId, pay.tableId with
            | some oid, some tid =>
              let db2 := setOrderStatus db1 oid "completed"
              let db3 := setTableStatus db2 tid "free"
              Except.ok (broadcast db3 (Event.splitBillCompleted pid oid tid))
            | _, _ => Except.error Err.paymentNotFound
        else Except.ok db1

/-- PATCH /api/bill-shares/:id/paid: run the body inside db.transaction — on
any throw the database is exactly as before the call. -/
def markSharePaid (db : DB) (sid : Nat) (inj : Bool) : DB × Except Err Unit :=
  match markSharePaidBody db sid inj with
  | Except.ok db2 => (db2, Except.ok ())
  | Except.error e => (db, Except.error e)

/-! ## Queue routes -/

/-- Count of waiting tickets of one queue (the position query of the join
route). -/
def countWaiting (db : DB) (qid : Nat) : Nat :=
  (db.queueTickets.filter (fun t => t.queueId == qid && t.status == "waiting")).length

/-- The insert half of the join route, parameterized by the queue record read
earlier and the ticket number minted from it: count the waiting tickets,
compute position and estimated wait from the in-memory queue record, insert
the waiting ticket and broadcast ticket_created. -/
def joinInsertTicket (db : DB) (q : Queue) (tn : Nat) : DB × QueueTicket × Nat :=
  let position := countWaiting db q.id + 1
  let est := position * q.avgServiceTime
  let t : QueueTicket :=
    { id := db.nextId
      queueId := q.id
      ticketNumber := tn
      status := "waiting"
      calledAt := none
      servedAt := none
      completedAt := none
      estimatedWaitMinutes := est }
  ({ db with
      queueTickets := db.queueTickets ++ [t]
      nextId := db.nextId + 1
      events := db.events ++ [Event.ticketCreated t.id] }, t, position)

/-- The write-then-insert suffix of the join route: set nextTicket from the
queue record captured in application memory, then insert the ticket with the
captured number. -/
def joinWriteAndInsert (db : DB) (q : Queue) : DB × QueueTicket × Nat :=
  let db1 := setQueueNextTicket db q.id (q.nextTicket + 1)
  joinInsertTicket db1 q q.nextTicket

/-- POST /api/public/queue/:qrCode/join run to completion with no
interleaving: read the queue by QR code, refuse closed or paused queues, mint
ticketNumber := nextTicket by a read-then-write pair, insert the ticket. -/
def joinQueue (db : DB) (qr : String) : DB × Except Err (QueueTicket × Nat) :=
  match findQueueByCode db qr with
  | none => (db, Except.error Err.queueNotFound)
  | some q =>
    if q.status == "closed" then (db, Except.error Err.queueClosed)
    else if q.status == "paused" then (db, Except.error Err.queuePaused)
    else
      let p := joinWriteAndInsert db q
      (p.1, Except.ok (p.2.1, p.2.2))

/-- Two concurrent joins to the same queue under the schedule in which both
requests execute their queue read (the first await) against the same state
before either performs its nextTicket write — a schedule the event loop
permits because the read and the write are separate awaited queries. -/
def joinQueueRace (db : DB) (qr : String) : DB :=
  match findQueueByCode db qr with
  | none => db
  | some qA =>
    match findQueueByCode db qr with
    | none => db
    | some qB =>
      let p1 := joinWriteAndInsert db qA
      let p2 := joinWriteAndInsert p1.1 qB
      p2.1

/-- The lowest-ticketNumber waiting ticket of a queue (findFirst with
orderBy asc ticketNumber). -/
def nextWaiting (db : DB) (qid : Nat) : Option QueueTicket :=
  (db.queueTickets.filter (fun t => t.queueId == qid && t.status == "waiting")).foldl
    (fun acc t =>
      match acc with
      | none => some t
      | some b => if t.ticketNumber < b.ticketNumber then some t else some b)
    none

/-- POST /api/queues/:id/call-next: pick the lowest waiting ticket, set it
called stamping calledAt, record its number as the queue's currentTicket and
broadcast ticket_called. -/
def callNext (db : DB) (orgId qid now : Nat) : DB × Except Err QueueTicket :=
  match findQueue db qid orgId with
  | none => (db, Except.error Err.queueNotFound)
  | some _ =>
    match nextWaiting db qid with
    | none => (db, Except.error Err.noWaitingTickets)
    | some t =>
      let upd : QueueTicket → QueueTicket :=
        fun x => { x with status := "called", calledAt := some now }
      let db1 := { db with queueTickets :=
          db.queueTickets.map (fun x => if x.id == t.id then upd x else x) }
      let db2 := setQueueCurrentTicket db1 qid t.ticketNumber
      (broadcast db2 (Event.ticketCalled t.id), Except.ok (upd t))

/-- The ticket row an UPDATE ... WHERE id = tid AND queueId = qid touches. -/
def findTicketRow (db : DB) (qid tid : Nat) : Option QueueTicket :=
  db.queueTickets.find? (fun t => t.id == tid && t.queueId == qid)

/-- PATCH /api/queues/:queueId/tickets/:ticketId/status: after the tenancy
check, build the update data — the requested status plus, unconditionally, a
fresh calledAt when the status is "called", servedAt when "serving",
completedAt when "completed" — and apply it to the matching ticket. -/
def updateTicketStatus (db : DB) (orgId qid tid : Nat) (st : String) (now : Nat) :
    DB × Except Err QueueTicket :=
  match findQueue db qid orgId with
  | none => (db, Except.error Err.queueNotFound)
  | some _ =>
    let upd : QueueTicket → QueueTicket := fun x =>
      { x with
        status := st
        calledAt := if st == "called" then some now else x.calledAt
        servedAt := if st == "serving" then some now else x.servedAt
        completedAt := if st == "completed" then some now else x.completedAt }
    match findTicketRow db qid tid with
    | none => (db, Except.error Err.ticketNotFound)
    | some t =>
      let db1 := { db with queueTickets :=
          db.queueTickets.map (fun x => if x.id == tid && x.queueId == qid then upd x else x) }
      (broadcast db1 (Event.ticketStatusUpdated tid), Except.ok (upd t))

/-! ## Derived notions used by the specification -/

/-- The non-cancelled items of one order. -/
def activeItemsOf (db : DB) (oid : Nat) : List OrderItem :=
  (orderItemsOf db oid).filter (fun i => !(i.status == "cancelled"))

/-- The monetary invariant of §8: every order's stored total is the sum of
quantity × snapshot price over its non-cancelled items. -/
def orderTotalsInv (db : DB) : Prop :=
  ∀ o ∈ db.orders, o.total = sumItems (activeItemsOf db o.id)

/-- Ids already present in the store are below the id sequence, so a freshly
minted id collides with nothing. -/
def idsBounded (db : DB) : Prop :=
  (∀ o ∈ db.orders, o.id < db.nextId) ∧ (∀ it ∈ db.orderItems, it.orderId < db.nextId)

/-- The error classes the split-bill route reports for structurally invalid
input (§7 ValidationError). -/
def isValidationErr : Err → Bool
  | Err.shareNameRequired _ => true
  | Err.shareAmountNotPositive _ => true
  | Err.sharesTotalMismatch => true
  | _ => false

/-- The re-read step of the mark-share-paid transaction: after the target
share's flag is set, are all shares of the given payment paid? -/
def allPaidAfterMark (db : DB) (sid pid : Nat) : Bool :=
  ((setSharePaid db sid).billShares.filter (fun s => s.paymentId == some pid)).all
    (fun s => s.paid)

/-! ## Concrete stores used in witnesses and counterexamples -/

/-- A store with a confirmed order, an occupied table, a split payment and
two shares of which only Bob's is paid, used for the mark-share-paid
theorems. -/
def dbC1 : DB :=
  { rtables := [{ id := 1, status := "occupied" }]
    menuItems := []
    orders := [{ id := 10, tableId := 1, status := "confirmed", total := 2000 }]
    orderItems := []
    payments := [{ id := 40, orderId := some 10, tableId := some 1,
                   amount := 2000, method := "card" }]
    billShares := [{ id := 41, paymentId := some 40, customerName := "Alice",
                     amount := 1200, paid := false },
                   { id := 42, paymentId := some 40, customerName := "Bob",
                     amount := 800, paid := true }]
    queues := []
    queueTickets := []
    events := []
    nextId := 50 }

/-- A store whose only order is already completed. -/
def dbC4 : DB :=
  { rtables := [{ id := 1, status := "free" }]
    menuItems := []
    orders := [{ id := 1, tableId := 1, status := "completed", total := 0 }]
    orderItems := []
    payments := []
    billShares := []
    queues := []
    queueTickets := []
    events := []
    nextId := 2 }

/-- A store with one confirmed order and one queued item, used to witness
the preparing-stamp idempotence at a concrete input. -/
def dbC7 : DB :=
  { rtables := [{ id := 1, status := "occupied" }]
    menuItems := [{ id := 1, price := 500 }]
    orders := [{ id := 10, tableId := 1, status := "confirmed", total := 500 }]
    orderItems := [{ id := 20, orderId := 10, menuItemId := 1, quantity := 1,
                     price := 500, status := "queued", startedPreparingAt := none }]
    payments := []
    billShares := []
    queues := []
    queueTickets := []
    events := []
    nextId := 30 }

/-- A store with one confirmed order on an occupied table and no payment
yet, used for the payment-route theorems. -/
def dbC5 : DB :=
  { rtables := [{ id := 1, status := "occupied" }]
    menuItems := []
    orders := [{ id := 10, tableId := 1, status := "confirmed", total := 2000 }]
    orderItems := []
    payments := []
    billShares := []
    queues := []
    queueTickets := []
    events := []
    nextId := 100 }

/-- A store with one active queue and no tickets, used for the queue-join
theorems. -/
def dbC8 : DB :=
  { rtables := []
    menuItems := []
    orders := []
    orderItems := []
    payments := []
    billShares := []
    queues := [{ id := 1, organizationId := 1, qrCode := "qr", status := "active",
                 currentTicket := 0, nextTicket := 1, avgServiceTime := 5 }]
    queueTickets := []
    events := []
    nextId := 50 }

/-- A store with one queue and one ticket already called at time 1, used for
the ticket-timestamp theorems. -/
def dbC9 : DB :=
  { rtables := []
    menuItems := []
    orders := []
    orderItems := []
    payments := []
    billShares := []
    queues := [{ id := 1, organizationId := 1, qrCode := "qr", status := "active",
                 currentTicket := 3, nextTicket := 4, avgServiceTime := 5 }]
    queueTickets := [{ id := 7, queueId := 1, ticketNumber := 3, status := "called",
                       calledAt := some 1, servedAt := none, completedAt := none,
                       estimatedWaitMinutes := 5 }]
    events := []
    nextId := 60 }

/-! ## List helper lemmas -/

theorem find?_map_comm {α : Type} (l : List α) (g : α → α) (p : α → Bool)
    (h : ∀ a, p (g a) = p a) : (l.map g).find? p = (l.find? p).map g := by
  induction l with
  | nil => rfl
  | cons x xs ih =>
    simp only [List.map_cons, List.find?_cons, h]
    cases hx : p x with
    | true => simp [hx]
    | false => simpa [hx] using ih

theorem map_eq_self_of {α : Type} (l : List α) (g : α → α) (h : ∀ a ∈ l, g a = a) :
    l.map g = l := by
  induction l with
  | nil => rfl
  | cons x xs ih =>
    rw [List.map_cons, h x (List.mem_cons_self x xs),
      ih (fun a ha => h a (List.mem_cons_of_mem x ha))]

theorem filter_map_comm {α : Type} (l : List α) (g : α → α) (p : α → Bool)
    (h : ∀ a ∈ l, p (g a) = p a) : (l.map g).filter p = (l.filter p).map g := by
  induction l with
  | nil => rfl
  | cons x xs ih =>
    have hx := h x (List.mem_cons_self x xs)
    have hrest : ∀ a ∈ xs, p (g a) = p a := fun a ha => h a (List.mem_cons_of_mem x ha)
    cases hpx : p x with
    | true =>
      rw [List.map_cons, List.filter_cons_of_pos (by rw [hx, hpx]),
        List.filter_cons_of_pos hpx, List.map_cons, ih hrest]
    | false =>
      rw [List.map_cons, List.filter_cons_of_neg (by simp [hx, hpx]),
        List.filter_cons_of_neg (by simp [hpx]), ih hrest]

theorem sumItems_map_eq (l : List OrderItem) (g : OrderItem → OrderItem)
    (h : ∀ x ∈ l, (g x).quantity = x.quantity ∧ (g x).price = x.price) :
    sumItems (l.map g) = sumItems l := by
  induction l with
  | nil => rfl
  | cons x xs ih =>
    have hx := h x (List.mem_cons_self x xs)
    have hrest : ∀ a ∈ xs, (g a).quantity = a.quantity ∧ (g a).price = a.price :=
      fun a ha => h a (List.mem_cons_of_mem x ha)
    simp only [sumItems, List.map_cons, List.sum_cons] at *
    rw [hx.1, hx.2, ih hrest]

theorem sumItems_append (a b : List OrderItem) :
    sumItems (a ++ b) = sumItems a + sumItems b := by
  simp [sumItems]

/-! ## Lookup helper lemmas -/

theorem findOrder_some_id {db : DB} {oid : Nat} {o : Order}
    (h : findOrder db oid = some o) : o.id = oid := by
  have := List.find?_some h
  simpa using this

theorem findOrderItem_some_id {db : DB} {iid : Nat} {it : OrderItem}
    (h : findOrderItem db iid = some it) : it.id = iid := by
  have := List.find?_some h
  simpa using this

theorem findShare_some_id {db : DB} {sid : Nat} {s : BillShare}
    (h : findShare db sid = some s) : s.id = sid := by
  have := List.find?_some h
  simpa using this

theorem findOrder_mem {db : DB} {oid : Nat} {o : Order}
    (h : findOrder db oid = some o) : o ∈ db.orders :=
  List.mem_of_find?_eq_some h

theorem findOrderItem_mem {db : DB} {iid : Nat} {it : OrderItem}
    (h : findOrderItem db iid = some it) : it ∈ db.orderItems :=
  List.mem_of_find?_eq_some h

/-! ## Claim C4 -/

/-- C4 counterexample: confirming an order whose status is "completed" does
not fail with an InvalidState error — the call succeeds and rewrites the
status to "confirmed", so the pending-only guard the claim asserts does not
exist in the code. -/
theorem c4_confirmOrder_counterexample :
    (findOrder dbC4 1).map (fun o => o.status) = some "completed" ∧
    (confirmOrder dbC4 1).2 = Except.ok () ∧
    (confirmOrder dbC4 1).1.orders.map (fun o => o.status) = ["confirmed"] := by
  refine ⟨by decide, by decide, by decide⟩

/-- C4 amended: confirmOrder transitions any existing order to "confirmed"
regardless of its current status (there is no pending-only guard and no
InvalidState failure); it fails, with a NotFound error and no state change,
only when the order does not exist. -/
theorem c4_confirmOrder_amended (db : DB) (oid : Nat) :
    (∀ o, findOrder db oid = some o →
      (confirmOrder db oid).2 = Except.ok () ∧
      (∀ o2 ∈ (confirmOrder db oid).1.orders, o2.id = oid → o2.status = "confirmed") ∧
      (confirmOrder db oid).1.events = db.events ++ [Event.orderConfirmed oid]) ∧
    (findOrder db oid = none →
      (confirmOrder db oid).2 = Except.error Err.orderNotFound ∧
      (confirmOrder db oid).1 = db) := by
  constructor
  · intro o ho
    have hid : o.id = oid := findOrder_some_id ho
    simp only [confirmOrder, updateOrderStatusS, ho, Option.map_some]
    refine ⟨rfl, ?_, ?_⟩
    · intro o2 hmem hoid2
      simp only [broadcast, setOrderStatus] at hmem
      rcases List.mem_map.mp hmem with ⟨y, _, hy⟩
      by_cases hyid : (y.id == oid) = true
      · rw [if_pos hyid] at hy
        rw [← hy]
      · rw [if_neg hyid] at hy
        exact absurd (by simp [hy, hoid2]) hyid
    · simp [broadcast, setOrderStatus, hid]
  · intro ho
    simp only [confirmOrder, updateOrderStatusS, ho, Option.map_none]
    exact ⟨rfl, rfl⟩

/-- C4 amended, witnessed at a concrete store: confirming the completed
order of dbC4 succeeds and leaves it "confirmed". -/
theorem c4_confirmOrder_amended_witness :
    (confirmOrder dbC4 1).2 = Except.ok () ∧
    (∀ o2 ∈ (confirmOrder dbC4 1).1.orders, o2.id = 1 → o2.status = "confirmed") :=
  ⟨((c4_confirmOrder_amended dbC4 1).1
      { id := 1, tableId := 1, status := "completed", total := 0 } (by decide)).1,
   ((c4_confirmOrder_amended dbC4 1).1
      { id := 1, tableId := 1, status := "completed", total := 0 } (by decide)).2.1⟩

/-! ## Claim C7 -/

theorem findOrderItem_congr {db1 db2 : DB} (h : db1.orderItems = db2.orderItems)
    (iid : Nat) : findOrderItem db1 iid = findOrderItem db2 iid := by
  simp [findOrderItem, h]

/-- The status route only appends events after the item update, so the
item rows it leaves behind are those of the storage update. -/
theorem advance_route_orderItems (db : DB) (oid iid : Nat) (st : String) (now : Nat)
    (it : OrderItem) (hit : findOrderItem db iid = some it) :
    (advanceItemStatus db oid iid st now).1.orderItems =
      (updateOrderItemStatusS db iid st now).1.orderItems := by
  have h2 : (updateOrderItemStatusS db iid st now).2 =
      some ((fun x =>
        { x with
          status := st
          startedPreparingAt :=
            if (st == "preparing" &&
                match findOrderItem db iid with
                | some it => it.startedPreparingAt == none
                | none => false) = true
            then some now else x.startedPreparingAt }) it) := by
    simp only [updateOrderItemStatusS, hit, Option.map_some]
    rfl
  simp only [advanceItemStatus, h2]
  split
  · simp [broadcast]
  · split
    · simp [broadcast]
    · simp [broadcast]

/-- C7: entering "preparing" stamps startedPreparingAt only when unset.
Starting from an item with no stamp, the first status call stamps the then
current time t1, and a second call into "preparing" at a later time t2 leaves
the stamp at t1. -/
theorem c7_startedPreparingAt_idempotent (db : DB) (orderId itemId t1 t2 : Nat)
    (it : OrderItem) (hit : findOrderItem db itemId = some it)
    (h0 : it.startedPreparingAt = none) :
    ∃ it1,
      findOrderItem (advanceItemStatus db orderId itemId "preparing" t1).1 itemId = some it1 ∧
      it1.startedPreparingAt = some t1 ∧
      ∃ it2,
        findOrderItem
          (advanceItemStatus (advanceItemStatus db orderId itemId "preparing" t1).1
            orderId itemId "preparing" t2).1 itemId = some it2 ∧
        it2.startedPreparingAt = some t1 := by
  have hid : it.id = itemId := findOrderItem_some_id hit
  -- the first storage update stamps t1
  have hu1 : findOrderItem (updateOrderItemStatusS db itemId "preparing" t1).1 itemId =
      some { it with status := "preparing", startedPreparingAt := some t1 } := by
    simp only [updateOrderItemStatusS]
    show ((db.orderItems.map _).find? _) = _
    rw [find?_map_comm]
    · rw [show db.orderItems.find? (fun x => x.id == itemId) = some it from hit]
      simp [hid, hit, h0]
    · intro a
      by_cases ha : (a.id == itemId) = true
      · simp [ha]
      · simp [ha]
  have hroute1 : findOrderItem (advanceItemStatus db orderId itemId "preparing" t1).1 itemId =
      some { it with status := "preparing", startedPreparingAt := some t1 } := by
    rw [findOrderItem_congr (advance_route_orderItems db orderId itemId "preparing" t1 it hit)]
    exact hu1
  refine ⟨_, hroute1, rfl, ?_⟩
  -- the second call sees a stamped item, so the stamp branch is off
  set db1 := (advanceItemStatus db orderId itemId "preparing" t1).1 with hdb1
  set it1 : OrderItem := { it with status := "preparing", startedPreparingAt := some t1 } with hit1def
  have hit1 : findOrderItem db1 itemId = some it1 := hroute1
  have hu2 : findOrderItem (updateOrderItemStatusS db1 itemId "preparing" t2).1 itemId =
      some { it1 with status := "preparing" } := by
    simp only [updateOrderItemStatusS]
    show ((db1.orderItems.map _).find? _) = _
    rw [find?_map_comm]
    · rw [show db1.orderItems.find? (fun x => x.id == itemId) = some it1 from hit1]
      simp [hit1def, hid, hit1]
    · intro a
      by_cases ha : (a.id == itemId) = true
      · simp [ha]
      · simp [ha]
  have hroute2 : findOrderItem (advanceItemStatus db1 orderId itemId "preparing" t2).1 itemId =
      some { it1 with status := "preparing" } := by
    rw [findOrderItem_congr (advance_route_orderItems db1 orderId itemId "preparing" t2 it1 hit1)]
    exact hu2
  exact ⟨_, hroute2, rfl⟩

theorem c7_startedPreparingAt_idempotent_witness :
    ∃ it1,
      findOrderItem (advanceItemStatus dbC7 10 20 "preparing" 5).1 20 = some it1 ∧
      it1.startedPreparingAt = some 5 ∧
      ∃ it2,
        findOrderItem
          (advanceItemStatus (advanceItemStatus dbC7 10 20 "preparing" 5).1
            10 20 "preparing" 9).1 20 = some it2 ∧
        it2.startedPreparingAt = some 5 :=
  c7_startedPreparingAt_idempotent dbC7 10 20 5 9
    { id := 20, orderId := 10, menuItemId := 1, quantity := 1,
      price := 500, status := "queued", startedPreparingAt := none }
    (by decide) (by decide)

/-! ## Claim C9 -/

/-- C9 counterexample: the ticket of dbC9 already has calledAt = 1, yet a
further status update to "called" at time 2 overwrites the stamp to 2 — the
timestamps are not set-once on first entry as the claim states. -/
theorem c9_timestamp_counterexample :
    dbC9.queueTickets.map (fun t => t.calledAt) = [some 1] ∧
    (updateTicketStatus dbC9 1 1 7 "called" 2).1.queueTickets.map (fun t => t.calledAt) =
      [some 2] := by
  refine ⟨by decide, by decide⟩

/-- C9 amended: every successful status update through the ticket-status
route stamps the timestamp matching the requested state — calledAt for
"called", servedAt for "serving", completedAt for "completed" — with the
current time unconditionally, overwriting any previously stored value, and
leaves the other two timestamps unchanged; no set-once guard exists. -/
theorem c9_updateTicketStatus_amended (db : DB) (orgId qid tid : Nat) (st : String)
    (now : Nat) (q : Queue) (hq : findQueue db qid orgId = some q)
    (t : QueueTicket) (ht : findTicketRow db qid tid = some t) :
    ∃ t2,
      (updateTicketStatus db orgId qid tid st now).2 = Except.ok t2 ∧
      findTicketRow (updateTicketStatus db orgId qid tid st now).1 qid tid = some t2 ∧
      t2.status = st ∧
      (st = "called" → t2.calledAt = some now) ∧
      (st = "serving" → t2.servedAt = some now) ∧
      (st = "completed" → t2.completedAt = some now) ∧
      (st ≠ "called" → t2.calledAt = t.calledAt) ∧
      (st ≠ "serving" → t2.servedAt = t.servedAt) ∧
      (st ≠ "completed" → t2.completedAt = t.completedAt) := by
  simp only [updateTicketStatus, hq, ht]
  refine ⟨_, rfl, ?_, rfl, ?_, ?_, ?_, ?_, ?_, ?_⟩
  · -- the row the store now holds is the updated one
    show findTicketRow (broadcast _ _) qid tid = _
    have hsel0 :=
      List.find?_some
        (show db.queueTickets.find? (fun x => x.id == tid && x.queueId == qid) = some t
          from ht)
    have hsel : (t.id == tid && t.queueId == qid) = true := hsel0
    simp only [findTicketRow, broadcast]
    rw [find?_map_comm]
    · rw [show db.queueTickets.find? (fun x => x.id == tid && x.queueId == qid) = some t
        from ht, Option.map_some', if_pos hsel]
    · intro a
      by_cases ha : (a.id == tid && a.queueId == qid) = true
      · simp [ha]
      · simp [ha]
  · intro h
    subst h
    simp
  · intro h
    subst h
    simp
  · intro h
    subst h
    simp
  · intro h
    simp [beq_iff_eq, h]
  · intro h
    simp [beq_iff_eq, h]
  · intro h
    simp [beq_iff_eq, h]

theorem c9_updateTicketStatus_amended_witness :
    ∃ t2,
      (updateTicketStatus dbC9 1 1 7 "serving" 9).2 = Except.ok t2 ∧
      findTicketRow (updateTicketStatus dbC9 1 1 7 "serving" 9).1 1 7 = some t2 ∧
      t2.status = "serving" ∧
      ("serving" = "called" → t2.calledAt = some 9) ∧
      ("serving" = "serving" → t2.servedAt = some 9) ∧
      ("serving" = "completed" → t2.completedAt = some 9) ∧
      ("serving" ≠ "called" → t2.calledAt = some 1) ∧
      ("serving" ≠ "serving" → t2.servedAt = none) ∧
      ("serving" ≠ "completed" → t2.completedAt = none) :=
  c9_updateTicketStatus_amended dbC9 1 1 7 "serving" 9
    { id := 1, organizationId := 1, qrCode := "qr", status := "active",
      currentTicket := 3, nextTicket := 4, avgServiceTime := 5 } (by decide)
    { id := 7, queueId := 1, ticketNumber := 3, status := "called",
      calledAt := some 1, servedAt := none, completedAt := none,
      estimatedWaitMinutes := 5 } (by decide)

/-! ## Claim C8 -/

/-- C8 counterexample: under the event-loop schedule in which two join
requests both read the queue before either writes nextTicket back, the store
ends with two distinct tickets carrying the same ticketNumber — the mint is a
read-then-write pair through application memory, not an atomic
read-and-increment, so concurrent joins are not duplicate-free. -/
theorem c8_ticketNumber_race_counterexample :
    (joinQueueRace dbC8 "qr").queueTickets.map (fun t => (t.id, t.ticketNumber)) =
      [(50, 1), (51, 1)] := by
  decide

/-- C8 amended: ticket numbers issued by non-overlapping joinQueue calls are
strictly increasing with no duplicates — each successful join mints exactly
the queue's nextTicket and advances the counter by one — but the mint is a
read-then-write pair from application memory, so interleaved concurrent joins
can issue the same number twice (see the race counterexample). -/
theorem c8_joinQueue_amended (db : DB) (qr : String) (q : Queue)
    (hq : findQueueByCode db qr = some q)
    (hc : q.status ≠ "closed") (hp : q.status ≠ "paused") :
    ∃ t1 pos1 t2 pos2,
      (joinQueue db qr).2 = Except.ok (t1, pos1) ∧
      (joinQueue (joinQueue db qr).1 qr).2 = Except.ok (t2, pos2) ∧
      t1.ticketNumber = q.nextTicket ∧
      t2.ticketNumber = q.nextTicket + 1 ∧
      t1.ticketNumber < t2.ticketNumber := by
  have hcb : (q.status == "closed") = false := by simp [beq_iff_eq, hc]
  have hpb : (q.status == "paused") = false := by simp [beq_iff_eq, hp]
  have hjoin1 : joinQueue db qr =
      ((joinWriteAndInsert db q).1,
        Except.ok ((joinWriteAndInsert db q).2.1, (joinWriteAndInsert db q).2.2)) := by
    simp only [joinQueue, hq, hcb, hpb, Bool.false_eq_true, if_false]
  set X := (joinQueue db qr).1 with hX
  -- the queue record after the first join carries the incremented counter
  have hq2 : findQueueByCode X qr =
      some { q with nextTicket := q.nextTicket + 1 } := by
    rw [hX, hjoin1]
    show ((db.queues.map _).find? _) = _
    rw [find?_map_comm]
    · rw [show db.queues.find? (fun x => x.qrCode == qr) = some q from hq]
      simp
    · intro a
      by_cases ha : (a.id == q.id) = true
      · simp [ha]
      · simp [ha]
  have hjoin2 : joinQueue X qr =
      ((joinWriteAndInsert X { q with nextTicket := q.nextTicket + 1 }).1,
        Except.ok
          ((joinWriteAndInsert X { q with nextTicket := q.nextTicket + 1 }).2.1,
           (joinWriteAndInsert X { q with nextTicket := q.nextTicket + 1 }).2.2)) := by
    simp only [joinQueue, hq2, hcb, hpb, Bool.false_eq_true, if_false]
  refine ⟨(joinWriteAndInsert db q).2.1, (joinWriteAndInsert db q).2.2,
    (joinWriteAndInsert X { q with nextTicket := q.nextTicket + 1 }).2.1,
    (joinWriteAndInsert X { q with nextTicket := q.nextTicket + 1 }).2.2,
    ?_, ?_, rfl, rfl, Nat.lt_succ_self q.nextTicket⟩
  · rw [hjoin1]
  · rw [hjoin2]

theorem c8_joinQueue_amended_witness :
    ∃ t1 pos1 t2 pos2,
      (joinQueue dbC8 "qr").2 = Except.ok (t1, pos1) ∧
      (joinQueue (joinQueue dbC8 "qr").1 "qr").2 = Except.ok (t2, pos2) ∧
      t1.ticketNumber = 1 ∧
      t2.ticketNumber = 1 + 1 ∧
      t1.ticketNumber < t2.ticketNumber :=
  c8_joinQueue_amended dbC8 "qr"
    { id := 1, organizationId := 1, qrCode := "qr", status := "active",
      currentTicket := 0, nextTicket := 1, avgServiceTime := 5 }
    (by decide) (by decide) (by decide)

/-! ## Claim C5 -/

/-- C5 counterexample: the payment route is three separate store calls with
no enclosing transaction. With a storage failure at the order-completion step
(after the payment insert), the payment row persists while the order is still
"confirmed" and the table still "occupied" — a partial application the claim
rules out. -/
theorem c5_recordPayment_counterexample :
    (recordPayment dbC5 10 1 2000 "cash" false false true false).2 =
      Except.error Err.injectedFault ∧
    (recordPayment dbC5 10 1 2000 "cash" false false true false).1.payments.map
      (fun p => (p.orderId, p.amount)) = [(some 10, 2000)] ∧
    (recordPayment dbC5 10 1 2000 "cash" false false true false).1.orders.map
      (fun o => o.status) = ["confirmed"] ∧
    (recordPayment dbC5 10 1 2000 "cash" false false true false).1.rtables.map
      (fun t => t.status) = ["occupied"] := by
  refine ⟨by decide, by decide, by decide, by decide⟩

/-- C5 amended: the non-split payment path applies its three effects as
separate sequential writes, not one atomic unit. When every step succeeds all
three are persisted (payment created, order completed, table freed, one
payment_processed event); but a failure after the payment insert leaves the
payment persisted while the order and table are unchanged — there is no
rollback. -/
theorem c5_recordPayment_amended (db : DB) (oid tid : Nat) (amount : ℤ)
    (method : String) :
    (∃ p,
      (recordPayment db oid tid amount method false false false false).2 = Except.ok p ∧
      p.orderId = some oid ∧ p.tableId = some tid ∧ p.amount = amount ∧
      (recordPayment db oid tid amount method false false false false).1.payments =
        db.payments ++ [p] ∧
      (∀ o ∈ (recordPayment db oid tid amount method false false false false).1.orders,
        o.id = oid → o.status = "completed") ∧
      (∀ t ∈ (recordPayment db oid tid amount method false false false false).1.rtables,
        t.id = tid → t.status = "free") ∧
      (recordPayment db oid tid amount method false false false false).1.events =
        db.events ++ [Event.paymentProcessed p.id oid tid]) ∧
    (∃ p,
      (recordPayment db oid tid amount method false false true false).2 =
        Except.error Err.injectedFault ∧
      (recordPayment db oid tid amount method false false true false).1.payments =
        db.payments ++ [p] ∧
      (recordPayment db oid tid amount method false false true false).1.orders = db.orders ∧
      (recordPayment db oid tid amount method false false true false).1.rtables =
        db.rtables) := by
  constructor
  · refine ⟨_, rfl, rfl, rfl, rfl, rfl, ?_, ?_, rfl⟩
    · intro o hmem hoid
      simp only [recordPayment, Bool.false_eq_true, if_false, broadcast, setTableStatus,
        setOrderStatus, createPaymentRow] at hmem
      rcases List.mem_map.mp hmem with ⟨y, _, hy⟩
      by_cases hyid : (y.id == oid) = true
      · rw [if_pos hyid] at hy
        rw [← hy]
      · rw [if_neg hyid] at hy
        exact absurd (by simp [hy, hoid]) hyid
    · intro t hmem htid
      simp only [recordPayment, Bool.false_eq_true, if_false, broadcast, setTableStatus,
        setOrderStatus, createPaymentRow] at hmem
      rcases List.mem_map.mp hmem with ⟨y, _, hy⟩
      by_cases hyid : (y.id == tid) = true
      · rw [if_pos hyid] at hy
        rw [← hy]
      · rw [if_neg hyid] at hy
        exact absurd (by simp [hy, htid]) hyid
  · exact ⟨_, rfl, rfl, rfl, rfl⟩

theorem c5_recordPayment_amended_witness :
    (∃ p,
      (recordPayment dbC5 10 1 2000 "cash" false false false false).2 = Except.ok p ∧
      p.orderId = some 10 ∧ p.tableId = some 1 ∧ p.amount = 2000 ∧
      (recordPayment dbC5 10 1 2000 "cash" false false false false).1.payments =
        dbC5.payments ++ [p] ∧
      (∀ o ∈ (recordPayment dbC5 10 1 2000 "cash" false false false false).1.orders,
        o.id = 10 → o.status = "completed") ∧
      (∀ t ∈ (recordPayment dbC5 10 1 2000 "cash" false false false false).1.rtables,
        t.id = 1 → t.status = "free") ∧
      (recordPayment dbC5 10 1 2000 "cash" false false false false).1.events =
        dbC5.events ++ [Event.paymentProcessed p.id 10 1]) ∧
    (∃ p,
      (recordPayment dbC5 10 1 2000 "cash" false false true false).2 =
        Except.error Err.injectedFault ∧
      (recordPayment dbC5 10 1 2000 "cash" false false true false).1.payments =
        dbC5.payments ++ [p] ∧
      (recordPayment dbC5 10 1 2000 "cash" false false true false).1.orders = dbC5.orders ∧
      (recordPayment dbC5 10 1 2000 "cash" false false true false).1.rtables =
        dbC5.rtables) :=
  c5_recordPayment_amended dbC5 10 1 2000 "cash"

/-! ## Claim C1 -/

/-- C1: marking a share paid flips exactly that share's flag; exactly when
the re-read inside the transaction finds every share of the payment paid, the
order is completed, the table freed and a single split_bill_completed event
with the payment/order/table ids is emitted; otherwise order, table and event
log are untouched; and a failure injected after the share update (before the
completion step) rolls the whole transaction back, leaving the store exactly
as before the call. -/
theorem c1_markSharePaid_spec (db : DB) (sid pid oid tid : Nat) (sh : BillShare)
    (hs : findShare db sid = some sh) (hp : sh.paymentId = some pid)
    (pay : Payment) (hpay : findPayment db pid = some pay)
    (ho : pay.orderId = some oid) (ht : pay.tableId = some tid) :
    (markSharePaid db sid false).2 = Except.ok () ∧
    (∀ s ∈ (markSharePaid db sid false).1.billShares, s.id = sid → s.paid = true) ∧
    (∀ s ∈ (markSharePaid db sid false).1.billShares, s.id ≠ sid → s ∈ db.billShares) ∧
    (allPaidAfterMark db sid pid = true ↔
      ∀ s ∈ db.billShares, s.paymentId = some pid → s.id = sid ∨ s.paid = true) ∧
    (allPaidAfterMark db sid pid = true →
      (∀ o ∈ (markSharePaid db sid false).1.orders, o.id = oid → o.status = "completed") ∧
      (∀ tb ∈ (markSharePaid db sid false).1.rtables, tb.id = tid → tb.status = "free") ∧
      (markSharePaid db sid false).1.events =
        db.events ++ [Event.splitBillCompleted pid oid tid]) ∧
    (allPaidAfterMark db sid pid = false →
      (markSharePaid db sid false).1.orders = db.orders ∧
      (markSharePaid db sid false).1.rtables = db.rtables ∧
      (markSharePaid db sid false).1.events = db.events) ∧
    (markSharePaid db sid true = (db, Except.error Err.injectedFault)) := by
  have hpay1 : findPayment (setSharePaid db sid) pid = some pay := hpay
  have hbody : markSharePaidBody db sid false =
      (if allPaidAfterMark db sid pid then
        Except.ok
          (broadcast
            (setTableStatus (setOrderStatus (setSharePaid db sid) oid "completed") tid "free")
            (Event.splitBillCompleted pid oid tid))
      else Except.ok (setSharePaid db sid)) := by
    simp only [markSharePaidBody, hs, hp, hpay1, ho, ht, allPaidAfterMark,
      Bool.false_eq_true, if_false]
  have hinj : markSharePaid db sid true = (db, Except.error Err.injectedFault) := by
    simp only [markSharePaid, markSharePaidBody, hs, hp, if_true]
  -- the share rows after the call are exactly the flag update
  have hshares : (markSharePaid db sid false).1.billShares =
      (setSharePaid db sid).billShares := by
    simp only [markSharePaid, hbody]
    by_cases hb : allPaidAfterMark db sid pid = true
    · rw [if_pos hb]
      simp [broadcast, setTableStatus, setOrderStatus]
    · rw [if_neg hb]
  refine ⟨?_, ?_, ?_, ?_, ?_, ?_, hinj⟩
  · -- success acknowledgment
    simp only [markSharePaid, hbody]
    by_cases hb : allPaidAfterMark db sid pid = true
    · rw [if_pos hb]
    · rw [if_neg hb]
  · -- the target share is paid afterwards
    intro s hmem hsid
    rw [hshares] at hmem
    simp only [setSharePaid] at hmem
    rcases List.mem_map.mp hmem with ⟨y, _, hy⟩
    by_cases hyid : (y.id == sid) = true
    · rw [if_pos hyid] at hy
      rw [← hy]
    · rw [if_neg hyid] at hy
      exact absurd (by simp [hy, hsid]) hyid
  · -- every other share row is carried over unchanged
    intro s hmem hsid
    rw [hshares] at hmem
    simp only [setSharePaid] at hmem
    rcases List.mem_map.mp hmem with ⟨y, hymem, hy⟩
    by_cases hyid : (y.id == sid) = true
    · rw [if_pos hyid] at hy
      exact absurd (by simp [← hy]; simpa using hyid) hsid
    · rw [if_neg hyid] at hy
      rw [← hy]
      exact hymem
  · -- the transaction's all-paid test in terms of the original rows
    constructor
    · intro h s hmem hpid
      by_cases hid : s.id = sid
      · exact Or.inl hid
      · refine Or.inr ?_
        have hmem2 : (if (s.id == sid) = true then { s with paid := true } else s) ∈
            (setSharePaid db sid).billShares := by
          simp only [setSharePaid]
          exact List.mem_map_of_mem _ hmem
        rw [if_neg (by simp [hid])] at hmem2
        have hfil : s ∈ (setSharePaid db sid).billShares.filter
            (fun x => x.paymentId == some pid) := by
          rw [List.mem_filter]
          exact ⟨hmem2, by simp [hpid]⟩
        have := (List.all_eq_true.mp h) s hfil
        simpa using this
    · intro h
      apply List.all_eq_true.mpr
      intro x hx
      rcases List.mem_filter.mp hx with ⟨hxmem, hxpid⟩
      simp only [setSharePaid] at hxmem
      rcases List.mem_map.mp hxmem with ⟨y, hymem, hy⟩
      by_cases hyid : (y.id == sid) = true
      · rw [if_pos hyid] at hy
        simp [← hy]
      · rw [if_neg hyid] at hy
        have hypid : y.paymentId = some pid := by
          rw [← hy] at hxpid
          simpa using hxpid
        rcases h y hymem hypid with hcase | hcase
        · exact absurd (by simp [hcase]) hyid
        · rw [← hy]
          simpa using hcase
  · -- completion branch
    intro hb
    have hr1 : (markSharePaid db sid false).1 =
        broadcast
          (setTableStatus (setOrderStatus (setSharePaid db sid) oid "completed") tid "free")
          (Event.splitBillCompleted pid oid tid) := by
      simp only [markSharePaid, hbody, if_pos hb]
    refine ⟨?_, ?_, ?_⟩
    · intro o hmem hoid
      rw [hr1] at hmem
      simp only [broadcast, setTableStatus, setOrderStatus, setSharePaid] at hmem
      rcases List.mem_map.mp hmem with ⟨y, _, hy⟩
      by_cases hyid : (y.id == oid) = true
      · rw [if_pos hyid] at hy
        rw [← hy]
      · rw [if_neg hyid] at hy
        exact absurd (by simp [hy, hoid]) hyid
    · intro tb hmem htid
      rw [hr1] at hmem
      simp only [broadcast, setTableStatus, setOrderStatus, setSharePaid] at hmem
      rcases List.mem_map.mp hmem with ⟨y, _, hy⟩
      by_cases hyid : (y.id == tid) = true
      · rw [if_pos hyid] at hy
        rw [← hy]
      · rw [if_neg hyid] at hy
        exact absurd (by simp [hy, htid]) hyid
    · rw [hr1]
      simp [broadcast, setTableStatus, setOrderStatus, setSharePaid]
  · -- not-all-paid branch: order, table and event log untouched
    intro hb
    have hr1 : (markSharePaid db sid false).1 = setSharePaid db sid := by
      simp only [markSharePaid, hbody, if_neg (by simp [hb] : ¬allPaidAfterMark db sid pid = true)]
    rw [hr1]
    exact ⟨rfl, rfl, rfl⟩

theorem c1_markSharePaid_spec_witness :
    (markSharePaid dbC1 41 false).2 = Except.ok () ∧
    (∀ s ∈ (markSharePaid dbC1 41 false).1.billShares, s.id = 41 → s.paid = true) ∧
    (∀ s ∈ (markSharePaid dbC1 41 false).1.billShares, s.id ≠ 41 → s ∈ dbC1.billShares) ∧
    (allPaidAfterMark dbC1 41 40 = true ↔
      ∀ s ∈ dbC1.billShares, s.paymentId = some 40 → s.id = 41 ∨ s.paid = true) ∧
    (allPaidAfterMark dbC1 41 40 = true →
      (∀ o ∈ (markSharePaid dbC1 41 false).1.orders, o.id = 10 → o.status = "completed") ∧
      (∀ tb ∈ (markSharePaid dbC1 41 false).1.rtables, tb.id = 1 → tb.status = "free") ∧
      (markSharePaid dbC1 41 false).1.events =
        dbC1.events ++ [Event.splitBillCompleted 40 10 1]) ∧
    (allPaidAfterMark dbC1 41 40 = false →
      (markSharePaid dbC1 41 false).1.orders = dbC1.orders ∧
      (markSharePaid dbC1 41 false).1.rtables = dbC1.rtables ∧
      (markSharePaid dbC1 41 false).1.events = dbC1.events) ∧
    (markSharePaid dbC1 41 true = (dbC1, Except.error Err.injectedFault)) :=
  c1_markSharePaid_spec dbC1 41 40 10 1
    { id := 41, paymentId := some 40, customerName := "Alice", amount := 1200, paid := false }
    (by decide) (by decide)
    { id := 40, orderId := some 10, tableId := some 1, amount := 2000, method := "card" }
    (by decide) (by decide) (by decide)

/-! ## Claim C2 -/

/-- A structurally bad share makes the validation loop throw, whatever the
running index, and the error is one of the validation classes. -/
theorem validateShares_error_of_bad (shares : List ShareInput)
    (hbad : ∃ s ∈ shares, jsTrim s.customerName = "" ∨ s.amount ≤ 0) :
    ∀ i, ∃ e, validateShares shares i = Except.error e ∧ isValidationErr e = true := by
  induction shares with
  | nil => rcases hbad with ⟨s, hs, _⟩; cases hs
  | cons s rest ih =>
    intro i
    by_cases hname : (jsTrim s.customerName == "") = true
    · exact ⟨Err.shareNameRequired i, by simp only [validateShares, if_pos hname], rfl⟩
    · by_cases hamt : s.amount ≤ 0
      · refine ⟨Err.shareAmountNotPositive i, ?_, rfl⟩
        simp only [validateShares, if_neg hname, if_pos hamt]
      · rcases hbad with ⟨t, htmem, htbad⟩
        rcases List.mem_cons.mp htmem with rfl | htrest
        · rcases htbad with hb | hb
          · exact absurd (by simp [hb]) hname
          · exact absurd hb hamt
        · rcases ih ⟨t, htrest, htbad⟩ (i + 1) with ⟨e, he, hv⟩
          refine ⟨e, ?_, hv⟩
          simp only [validateShares, if_neg hname, if_neg hamt, he]

/-- When every share is structurally fine the validation loop succeeds and
returns the trimmed entries in order. -/
theorem validateShares_ok_of_good (shares : List ShareInput)
    (hgood : ∀ s ∈ shares, ¬(jsTrim s.customerName = "") ∧ ¬(s.amount ≤ 0)) :
    ∀ i, ∃ v, validateShares shares i = Except.ok v ∧
      List.Forall₂ (fun (s : ShareInput) (t : ShareInput) =>
        t.customerName = jsTrim s.customerName ∧ t.amount = s.amount) shares v := by
  induction shares with
  | nil => exact fun i => ⟨[], rfl, List.Forall₂.nil⟩
  | cons s rest ih =>
    intro i
    have hs := hgood s (List.mem_cons_self s rest)
    have hrest : ∀ t ∈ rest, ¬(jsTrim t.customerName = "") ∧ ¬(t.amount ≤ 0) :=
      fun t ht => hgood t (List.mem_cons_of_mem s ht)
    rcases ih hrest (i + 1) with ⟨v, hv, hfa⟩
    refine ⟨{ customerName := jsTrim s.customerName, amount := s.amount } :: v, ?_, ?_⟩
    · simp only [validateShares, hv]
      rw [if_neg (show ¬(jsTrim s.customerName == "") = true by simp [beq_iff_eq, hs.1]),
        if_neg hs.2]
    · exact List.Forall₂.cons ⟨rfl, rfl⟩ hfa

/-- Validation does not change the amounts, so the two sums the route could
compare coincide. -/
theorem forall2_amount_sum {shares v : List ShareInput}
    (h : List.Forall₂ (fun (s : ShareInput) (t : ShareInput) =>
      t.customerName = jsTrim s.customerName ∧ t.amount = s.amount) shares v) :
    (v.map (fun s => s.amount)).sum = (shares.map (fun s => s.amount)).sum := by
  induction h with
  | nil => rfl
  | cons ha _ ih => simp [ih, ha.2]

/-- The share-insert loop appends one unpaid share per validated entry and
touches nothing else. -/
theorem insertShares_spec (v : List ShareInput) : ∀ (db : DB) (pid : Nat),
    (insertShares db pid v).1.billShares = db.billShares ++ (insertShares db pid v).2 ∧
    (insertShares db pid v).1.payments = db.payments ∧
    (insertShares db pid v).1.orders = db.orders ∧
    (insertShares db pid v).1.rtables = db.rtables ∧
    (insertShares db pid v).1.events = db.events ∧
    (insertShares db pid v).2.length = v.length ∧
    (∀ c ∈ (insertShares db pid v).2, c.paymentId = some pid ∧ c.paid = false) := by
  induction v with
  | nil => exact fun db pid => ⟨by simp [insertShares], rfl, rfl, rfl, rfl, rfl, by simp [insertShares]⟩
  | cons s rest ih =>
    intro db pid
    have hstep := ih
      { db with
        billShares := db.billShares ++
          [{ id := db.nextId, paymentId := some pid, customerName := s.customerName,
             amount := s.amount, paid := false }]
        nextId := db.nextId + 1 } pid
    refine ⟨?_, ?_, ?_, ?_, ?_, ?_, ?_⟩
    · show (insertShares _ pid rest).1.billShares = _
      rw [hstep.1]
      simp [insertShares]
    · exact hstep.2.1
    · exact hstep.2.2.1
    · exact hstep.2.2.2.1
    · exact hstep.2.2.2.2.1
    · show ((insertShares _ pid rest).2.length + 1 = rest.length + 1)
      rw [hstep.2.2.2.2.2.1]
    · intro c hc
      rcases List.mem_cons.mp hc with rfl | hcrest
      · exact ⟨rfl, rfl⟩
      · exact hstep.2.2.2.2.2.2 c hcrest

/-- C2: the split-bill transaction rejects a missing or unconfirmed order, a
share with a blank name or non-positive amount, and a share sum deviating
from the stored total by more than one cent; any failure leaves the store
untouched; success persists exactly one payment carrying the order's stored
total plus one unpaid share per entry, with order and table unchanged. -/
theorem c2_createSplitBill_spec (db : DB) (orderId tableId : Nat) (method : String)
    (shares : List ShareInput) (hne : shares ≠ []) :
    (findOrder db orderId = none →
      createSplitBill db orderId tableId method shares =
        (db, Except.error Err.orderNotFound)) ∧
    (∀ o, findOrder db orderId = some o → o.status ≠ "confirmed" →
      createSplitBill db orderId tableId method shares =
        (db, Except.error Err.orderNotConfirmed)) ∧
    (∀ o, findOrder db orderId = some o → o.status = "confirmed" →
      (∃ s ∈ shares, jsTrim s.customerName = "" ∨ s.amount ≤ 0) →
      ∃ e, createSplitBill db orderId tableId method shares = (db, Except.error e) ∧
        isValidationErr e = true) ∧
    (∀ o, findOrder db orderId = some o → o.status = "confirmed" →
      (∀ s ∈ shares, ¬(jsTrim s.customerName = "") ∧ ¬(s.amount ≤ 0)) →
      absC ((shares.map (fun s => s.amount)).sum - o.total) > 1 →
      createSplitBill db orderId tableId method shares =
        (db, Except.error Err.sharesTotalMismatch)) ∧
    (∀ e, (createSplitBill db orderId tableId method shares).2 = Except.error e →
      (createSplitBill db orderId tableId method shares).1 = db) ∧
    (∀ o, findOrder db orderId = some o → o.status = "confirmed" →
      (∀ s ∈ shares, ¬(jsTrim s.customerName = "") ∧ ¬(s.amount ≤ 0)) →
      ¬(absC ((shares.map (fun s => s.amount)).sum - o.total) > 1) →
      ∃ p cs,
        (createSplitBill db orderId tableId method shares).2 = Except.ok (p, cs) ∧
        p.orderId = some orderId ∧ p.tableId = some tableId ∧ p.amount = o.total ∧
        (createSplitBill db orderId tableId method shares).1.payments =
          db.payments ++ [p] ∧
        (createSplitBill db orderId tableId method shares).1.billShares =
          db.billShares ++ cs ∧
        cs.length = shares.length ∧
        (∀ c ∈ cs, c.paymentId = some p.id ∧ c.paid = false) ∧
        (createSplitBill db orderId tableId method shares).1.orders = db.orders ∧
        (createSplitBill db orderId tableId method shares).1.rtables = db.rtables ∧
        (createSplitBill db orderId tableId method shares).1.events = db.events) := by
  have hie : shares.isEmpty = false := by
    cases shares with
    | nil => exact absurd rfl hne
    | cons a l => rfl
  refine ⟨?_, ?_, ?_, ?_, ?_, ?_⟩
  · intro ho
    simp only [createSplitBill, hie, Bool.false_eq_true, if_false, createSplitBillBody, ho]
  · intro o ho hst
    simp only [createSplitBill, hie, Bool.false_eq_true, if_false, createSplitBillBody, ho,
      if_pos (by simp [beq_iff_eq, hst] : (!(o.status == "confirmed")) = true)]
  · intro o ho hst hbad
    rcases validateShares_error_of_bad shares hbad 1 with ⟨e, he, hv⟩
    refine ⟨e, ?_, hv⟩
    simp only [createSplitBill, hie, Bool.false_eq_true, if_false, createSplitBillBody, ho,
      if_neg (by simp [beq_iff_eq, hst] : ¬(!(o.status == "confirmed")) = true), he]
  · intro o ho hst hgood hgt
    rcases validateShares_ok_of_good shares hgood 1 with ⟨v, hv, hfa⟩
    have hsum := forall2_amount_sum hfa
    have hcond : absC ((v.map (fun s => s.amount)).sum - o.total) > 1 := by
      rw [hsum]
      exact hgt
    simp only [createSplitBill, hie, Bool.false_eq_true, if_false, createSplitBillBody, ho,
      if_neg (show ¬(!(o.status == "confirmed")) = true by simp [beq_iff_eq, hst]), hv,
      if_pos hcond]
  · intro e he
    simp only [createSplitBill] at he ⊢
    by_cases h0 : shares.isEmpty = true
    · rw [if_pos h0] at he ⊢
    · rw [if_neg h0] at he ⊢
      cases hbody : createSplitBillBody db orderId tableId method shares with
      | error e2 => rfl
      | ok r =>
        rw [hbody] at he
        simp at he
  · intro o ho hst hgood hgt
    rcases validateShares_ok_of_good shares hgood 1 with ⟨v, hv, hfa⟩
    have hsum := forall2_amount_sum hfa
    have hcond : ¬(absC ((v.map (fun s => s.amount)).sum - o.total) > 1) := by
      rw [hsum]
      exact hgt
    have hres : createSplitBill db orderId tableId method shares =
        ((insertShares (createPaymentRow db (some orderId) (some tableId) o.total method).1
            (createPaymentRow db (some orderId) (some tableId) o.total method).2.id v).1,
          Except.ok
            ((createPaymentRow db (some orderId) (some tableId) o.total method).2,
             (insertShares (createPaymentRow db (some orderId) (some tableId) o.total method).1
                (createPaymentRow db (some orderId) (some tableId) o.total method).2.id v).2)) := by
      simp only [createSplitBill, hie, Bool.false_eq_true, if_false, createSplitBillBody, ho,
        if_neg (show ¬(!(o.status == "confirmed")) = true by simp [beq_iff_eq, hst]), hv,
        if_neg hcond]
    have hins := insertShares_spec v
      (createPaymentRow db (some orderId) (some tableId) o.total method).1
      (createPaymentRow db (some orderId) (some tableId) o.total method).2.id
    refine ⟨(createPaymentRow db (some orderId) (some tableId) o.total method).2,
      (insertShares (createPaymentRow db (some orderId) (some tableId) o.total method).1
        (createPaymentRow db (some orderId) (some tableId) o.total method).2.id v).2,
      ?_, rfl, rfl, rfl, ?_, ?_, ?_, ?_, ?_, ?_, ?_⟩
    · rw [hres]
    · rw [hres]
      exact hins.2.1
    · rw [hres]
      exact hins.1
    · rw [hins.2.2.2.2.2.1]
      exact (List.Forall₂.length_eq hfa).symm
    · exact hins.2.2.2.2.2.2
    · rw [hres]
      exact hins.2.2.1
    · rw [hres]
      exact hins.2.2.2.1
    · rw [hres]
      exact hins.2.2.2.2.1

theorem c2_createSplitBill_spec_witness :
    ∃ p cs,
      (createSplitBill dbC5 10 1 "cash"
        [{ customerName := "Alice", amount := 1200 },
         { customerName := "Bob", amount := 800 }]).2 = Except.ok (p, cs) ∧
      p.orderId = some 10 ∧ p.tableId = some 1 ∧ p.amount = 2000 ∧
      (createSplitBill dbC5 10 1 "cash"
        [{ customerName := "Alice", amount := 1200 },
         { customerName := "Bob", amount := 800 }]).1.payments = dbC5.payments ++ [p] ∧
      (createSplitBill dbC5 10 1 "cash"
        [{ customerName := "Alice", amount := 1200 },
         { customerName := "Bob", amount := 800 }]).1.billShares = dbC5.billShares ++ cs ∧
      cs.length = 2 ∧
      (∀ c ∈ cs, c.paymentId = some p.id ∧ c.paid = false) ∧
      (createSplitBill dbC5 10 1 "cash"
        [{ customerName := "Alice", amount := 1200 },
         { customerName := "Bob", amount := 800 }]).1.orders = dbC5.orders ∧
      (createSplitBill dbC5 10 1 "cash"
        [{ customerName := "Alice", amount := 1200 },
         { customerName := "Bob", amount := 800 }]).1.rtables = dbC5.rtables ∧
      (createSplitBill dbC5 10 1 "cash"
        [{ customerName := "Alice", amount := 1200 },
         { customerName := "Bob", amount := 800 }]).1.events = dbC5.events :=
  ((c2_createSplitBill_spec dbC5 10 1 "cash"
      [{ customerName := "Alice", amount := 1200 },
       { customerName := "Bob", amount := 800 }] (by decide)).2.2.2.2.2
    { id := 10, tableId := 1, status := "confirmed", total := 2000 }
    (by decide) (by decide)
    (by intro s hs
        rcases List.mem_cons.mp hs with rfl | hs2
        · exact ⟨by decide, by decide⟩
        · rcases List.mem_cons.mp hs2 with rfl | hs3
          · exact ⟨by decide, by decide⟩
          · cases hs3)
    (by decide))

/-! ## Claims C6 and C10 -/

theorem findMenuItem_eq_of {db1 db2 : DB} (h : db1.menuItems = db2.menuItems) :
    findMenuItem db1 = findMenuItem db2 := by
  funext mid
  simp [findMenuItem, h]

theorem setTableStatus_mem {db : DB} {tid : Nat} {st : String} :
    ∀ t ∈ (setTableStatus db tid st).rtables, t.id = tid → t.status = st := by
  intro t hmem htid
  simp only [setTableStatus] at hmem
  rcases List.mem_map.mp hmem with ⟨y, _, hy⟩
  by_cases hyid : (y.id == tid) = true
  · rw [if_pos hyid] at hy
    rw [← hy]
  · rw [if_neg hyid] at hy
    exact absurd (by simp [hy, htid]) hyid

/-- The item loop of POST /api/orders: it touches only orderItems and the id
sequence; it appends one queued snapshot item per cart line whose menu item
exists, in order, silently skipping the rest, and returns the accumulated
sum of quantity × snapshot price. -/
theorem addCartLines_spec (lines : List CartLine) : ∀ (db : DB) (oid : Nat) (acc : ℤ),
    (addCartLines db oid lines acc).1.orders = db.orders ∧
    (addCartLines db oid lines acc).1.rtables = db.rtables ∧
    (addCartLines db oid lines acc).1.menuItems = db.menuItems ∧
    (addCartLines db oid lines acc).1.events = db.events ∧
    ∃ newItems : List OrderItem,
      (addCartLines db oid lines acc).1.orderItems = db.orderItems ++ newItems ∧
      (∀ it ∈ newItems, it.orderId = oid ∧ it.status = "queued" ∧
        it.startedPreparingAt = none) ∧
      List.Forall₂ (fun (line : CartLine) (it : OrderItem) =>
        it.quantity = line.quantity ∧ it.menuItemId = line.menuItemId ∧
        ∃ m, findMenuItem db line.menuItemId = some m ∧ it.price = m.price)
        (lines.filter (fun line => (findMenuItem db line.menuItemId).isSome)) newItems ∧
      (addCartLines db oid lines acc).2 = acc + sumItems newItems := by
  induction lines with
  | nil =>
    intro db oid acc
    refine ⟨rfl, rfl, rfl, rfl, [], by simp [addCartLines], by simp, ?_, by simp [addCartLines, sumItems]⟩
    simp [List.Forall₂.nil]
  | cons line rest ih =>
    intro db oid acc
    cases hm : findMenuItem db line.menuItemId with
    | none =>
      have hstep := ih db oid acc
      have hred : addCartLines db oid (line :: rest) acc = addCartLines db oid rest acc := by
        simp only [addCartLines, hm]
      have hfil : (line :: rest).filter (fun l => (findMenuItem db l.menuItemId).isSome) =
          rest.filter (fun l => (findMenuItem db l.menuItemId).isSome) := by
        rw [List.filter_cons_of_neg (by simp [hm])]
      rw [hred, hfil]
      exact hstep
    | some m =>
      have hstep := ih (createOrderItemRow db oid line.menuItemId line.quantity m.price)
        oid (acc + (line.quantity : ℤ) * m.price)
      have hred : addCartLines db oid (line :: rest) acc =
          addCartLines (createOrderItemRow db oid line.menuItemId line.quantity m.price)
            oid rest (acc + (line.quantity : ℤ) * m.price) := by
        simp only [addCartLines, hm]
      have hmenu : findMenuItem (createOrderItemRow db oid line.menuItemId line.quantity m.price) =
          findMenuItem db := findMenuItem_eq_of rfl
      rcases hstep with ⟨ho, ht, hme, hev, newItems, hitems, hprops, hfa, hacc⟩
      have hfil : (line :: rest).filter (fun l => (findMenuItem db l.menuItemId).isSome) =
          line :: rest.filter (fun l => (findMenuItem db l.menuItemId).isSome) := by
        rw [List.filter_cons_of_pos (by simp [hm])]
      rw [hred, hfil]
      refine ⟨ho, ht, hme, hev,
        { id := db.nextId, orderId := oid, menuItemId := line.menuItemId,
          quantity := line.quantity, price := m.price, status := "queued",
          startedPreparingAt := none } :: newItems, ?_, ?_, ?_, ?_⟩
      · rw [hitems]
        simp [createOrderItemRow]
      · intro it hit
        rcases List.mem_cons.mp hit with rfl | hrest2
        · exact ⟨rfl, rfl, rfl⟩
        · exact hprops it hrest2
      · refine List.Forall₂.cons ⟨rfl, rfl, m, hm, rfl⟩ ?_
        rw [hmenu] at hfa
        exact hfa
      · rw [hacc]
        simp only [sumItems, List.map_cons, List.sum_cons]
        rw [add_assoc]

/-- POST /api/orders, characterized: a pending order is appended carrying the
sum of quantity × snapshot price over exactly the cart lines whose menu item
exists (the others silently skipped), the snapshot items are appended, the
table is set occupied, and one order_created event is emitted. -/
theorem submitOrder_characterization (db : DB) (tableId : Nat) (lines : List CartLine)
    (hb : idsBounded db) :
    ∃ newItems : List OrderItem,
      (submitOrder db tableId lines).1.orderItems = db.orderItems ++ newItems ∧
      List.Forall₂ (fun (line : CartLine) (it : OrderItem) =>
        it.quantity = line.quantity ∧ it.menuItemId = line.menuItemId ∧
        ∃ m, findMenuItem db line.menuItemId = some m ∧ it.price = m.price)
        (lines.filter (fun line => (findMenuItem db line.menuItemId).isSome)) newItems ∧
      (∀ it ∈ newItems, it.orderId = db.nextId ∧ it.status = "queued" ∧
        it.startedPreparingAt = none) ∧
      (submitOrder db tableId lines).1.orders =
        db.orders ++ [{ id := db.nextId, tableId := tableId, status := "pending",
                        total := sumItems newItems }] ∧
      (∀ t ∈ (submitOrder db tableId lines).1.rtables, t.id = tableId →
        t.status = "occupied") ∧
      (submitOrder db tableId lines).1.events =
        db.events ++ [Event.orderCreated db.nextId] := by
  rcases addCartLines_spec lines (createOrderRow db tableId).1 db.nextId 0 with
    ⟨ho, ht, hme, hev, newItems, hitems, hprops, hfa, hacc⟩
  have hmenu : findMenuItem (createOrderRow db tableId).1 = findMenuItem db :=
    findMenuItem_eq_of rfl
  rw [hmenu] at hfa
  refine ⟨newItems, ?_, hfa, hprops, ?_, ?_, ?_⟩
  · exact hitems
  · -- the appended order row carries the recomputed total
    have ho2 : (addCartLines (createOrderRow db tableId).1 db.nextId lines 0).1.orders =
        db.orders ++ [{ id := db.nextId, tableId := tableId, status := "pending",
                        total := 0 }] := ho
    have horders : (submitOrder db tableId lines).1.orders =
        ((addCartLines (createOrderRow db tableId).1 db.nextId lines 0).1.orders).map
          (fun o => if o.id == db.nextId then
            { o with total := (addCartLines (createOrderRow db tableId).1 db.nextId lines 0).2 }
          else o) := rfl
    have hfix : ∀ o ∈ db.orders,
        (fun o => if o.id == db.nextId then
          { o with total := (addCartLines (createOrderRow db tableId).1 db.nextId lines 0).2 }
        else o) o = o := by
      intro o hoo
      exact if_neg (by simp [Nat.ne_of_lt (hb.1 o hoo)])
    rw [horders, ho2, List.map_append, map_eq_self_of db.orders _ hfix]
    simp [hacc]
  · intro t hmem htid
    exact setTableStatus_mem t hmem htid
  · have hevr : (submitOrder db tableId lines).1.events =
        (addCartLines (createOrderRow db tableId).1 db.nextId lines 0).1.events ++
          [Event.orderCreated db.nextId] := rfl
    rw [hevr, hev]
    rfl

/-- C6: submitOrder creates a pending order; each cart line whose menu item
exists yields one queued OrderItem snapshotting that menu item's current
price; lines naming a missing menu item are silently skipped; the stored
total is the sum of quantity × snapshot price over the created items; the
table is set occupied; one order_created event is emitted. -/
theorem c6_submitOrder_spec (db : DB) (tableId : Nat) (lines : List CartLine)
    (hb : idsBounded db) :
    ∃ newItems : List OrderItem,
      (submitOrder db tableId lines).1.orderItems = db.orderItems ++ newItems ∧
      List.Forall₂ (fun (line : CartLine) (it : OrderItem) =>
        it.quantity = line.quantity ∧ it.menuItemId = line.menuItemId ∧
        ∃ m, findMenuItem db line.menuItemId = some m ∧ it.price = m.price)
        (lines.filter (fun line => (findMenuItem db line.menuItemId).isSome)) newItems ∧
      (∀ it ∈ newItems, it.orderId = db.nextId ∧ it.status = "queued" ∧
        it.startedPreparingAt = none) ∧
      (submitOrder db tableId lines).1.orders =
        db.orders ++ [{ id := db.nextId, tableId := tableId, status := "pending",
                        total := sumItems newItems }] ∧
      (∀ t ∈ (submitOrder db tableId lines).1.rtables, t.id = tableId →
        t.status = "occupied") ∧
      (submitOrder db tableId lines).1.events =
        db.events ++ [Event.orderCreated db.nextId] :=
  submitOrder_characterization db tableId lines hb

theorem c6_submitOrder_spec_witness :
    ∃ newItems : List OrderItem,
      (submitOrder dbC7 1 [{ menuItemId := 1, quantity := 2 },
        { menuItemId := 9, quantity := 1 }]).1.orderItems = dbC7.orderItems ++ newItems ∧
      List.Forall₂ (fun (line : CartLine) (it : OrderItem) =>
        it.quantity = line.quantity ∧ it.menuItemId = line.menuItemId ∧
        ∃ m, findMenuItem dbC7 line.menuItemId = some m ∧ it.price = m.price)
        (([{ menuItemId := 1, quantity := 2 },
           { menuItemId := 9, quantity := 1 }] : List CartLine).filter
          (fun line => (findMenuItem dbC7 line.menuItemId).isSome)) newItems ∧
      (∀ it ∈ newItems, it.orderId = dbC7.nextId ∧ it.status = "queued" ∧
        it.startedPreparingAt = none) ∧
      (submitOrder dbC7 1 [{ menuItemId := 1, quantity := 2 },
        { menuItemId := 9, quantity := 1 }]).1.orders =
        dbC7.orders ++ [{ id := dbC7.nextId, tableId := 1, status := "pending",
                          total := sumItems newItems }] ∧
      (∀ t ∈ (submitOrder dbC7 1 [{ menuItemId := 1, quantity := 2 },
        { menuItemId := 9, quantity := 1 }]).1.rtables, t.id = 1 →
        t.status = "occupied") ∧
      (submitOrder dbC7 1 [{ menuItemId := 1, quantity := 2 },
        { menuItemId := 9, quantity := 1 }]).1.events =
        dbC7.events ++ [Event.orderCreated dbC7.nextId] :=
  c6_submitOrder_spec dbC7 1
    [{ menuItemId := 1, quantity := 2 }, { menuItemId := 9, quantity := 1 }]
    (by constructor
        · intro o hoo
          rcases List.mem_cons.mp hoo with rfl | h2
          · decide
          · cases h2
        · intro it hit
          rcases List.mem_cons.mp hit with rfl | h2
          · decide
          · cases h2)

/-- C10: a submitted order none of whose cart lines names an existing menu
item (an empty cart included) still succeeds: a pending order with total 0
and no items is persisted, the table is set occupied and an order_created
event is broadcast. -/
theorem c10_submitOrder_empty_spec (db : DB) (tableId : Nat) (lines : List CartLine)
    (hb : idsBounded db)
    (hnone : ∀ line ∈ lines, findMenuItem db line.menuItemId = none) :
    (submitOrder db tableId lines).1.orderItems = db.orderItems ∧
    (submitOrder db tableId lines).1.orders =
      db.orders ++ [{ id := db.nextId, tableId := tableId, status := "pending",
                      total := 0 }] ∧
    (∀ t ∈ (submitOrder db tableId lines).1.rtables, t.id = tableId →
      t.status = "occupied") ∧
    (submitOrder db tableId lines).1.events =
      db.events ++ [Event.orderCreated db.nextId] := by
  rcases submitOrder_characterization db tableId lines hb with
    ⟨newItems, hitems, hfa, hprops, horders, htab, hev⟩
  have hfil : lines.filter (fun line => (findMenuItem db line.menuItemId).isSome) = [] := by
    rw [List.filter_eq_nil_iff]
    intro a ha
    simp [hnone a ha]
  rw [hfil] at hfa
  have hempty : newItems = [] := by
    cases hfa
    rfl
  subst hempty
  refine ⟨by simpa using hitems, ?_, htab, hev⟩
  rw [horders]
  simp [sumItems]

theorem c10_submitOrder_empty_spec_witness :
    (submitOrder dbC4 1 [{ menuItemId := 5, quantity := 1 }]).1.orderItems =
      dbC4.orderItems ∧
    (submitOrder dbC4 1 [{ menuItemId := 5, quantity := 1 }]).1.orders =
      dbC4.orders ++ [{ id := dbC4.nextId, tableId := 1, status := "pending",
                        total := 0 }] ∧
    (∀ t ∈ (submitOrder dbC4 1 [{ menuItemId := 5, quantity := 1 }]).1.rtables,
      t.id = 1 → t.status = "occupied") ∧
    (submitOrder dbC4 1 [{ menuItemId := 5, quantity := 1 }]).1.events =
      dbC4.events ++ [Event.orderCreated dbC4.nextId] :=
  c10_submitOrder_empty_spec dbC4 1 [{ menuItemId := 5, quantity := 1 }]
    (by constructor
        · intro o hoo
          rcases List.mem_cons.mp hoo with rfl | h2
          · decide
          · cases h2
        · intro it hit
          cases hit)
    (by intro line hl
        rcases List.mem_cons.mp hl with rfl | h2
        · decide
        · cases h2)

/-! ## Claim C3 -/

theorem activeItemsOf_congr {db1 db2 : DB} (h : db1.orderItems = db2.orderItems) :
    activeItemsOf db1 = activeItemsOf db2 := by
  funext k
  simp [activeItemsOf, orderItemsOf, h]

/-- An item rewrite that keeps every row's order, quantity, price and
cancelled-or-not classification keeps every order's active sum. -/
theorem activeSum_map_eq (l : List OrderItem) (g : OrderItem → OrderItem) (k : Nat)
    (hid : ∀ x ∈ l, (g x).orderId = x.orderId)
    (hqp : ∀ x ∈ l, (g x).quantity = x.quantity ∧ (g x).price = x.price)
    (hst : ∀ x ∈ l, (!((g x).status == "cancelled")) = (!(x.status == "cancelled"))) :
    sumItems (((l.map g).filter (fun i => i.orderId == k)).filter
      (fun i => !(i.status == "cancelled"))) =
    sumItems ((l.filter (fun i => i.orderId == k)).filter
      (fun i => !(i.status == "cancelled"))) := by
  rw [filter_map_comm l g _ (fun a ha => by rw [hid a ha])]
  rw [filter_map_comm _ g _ (fun a ha => hst a (List.mem_of_mem_filter ha))]
  exact sumItems_map_eq _ g
    (fun x hx => hqp x (List.mem_of_mem_filter (List.mem_of_mem_filter hx)))

/-- An item rewrite that fixes every row of one order leaves that order's
item list unchanged. -/
theorem activeItems_map_eq_off (l : List OrderItem) (g : OrderItem → OrderItem) (k : Nat)
    (hid : ∀ x ∈ l, (g x).orderId = x.orderId)
    (hfix : ∀ x ∈ l, x.orderId = k → g x = x) :
    (l.map g).filter (fun i => i.orderId == k) = l.filter (fun i => i.orderId == k) := by
  rw [filter_map_comm l g _ (fun a ha => by rw [hid a ha])]
  exact map_eq_self_of _ g
    (fun x hx => hfix x (List.mem_of_mem_filter hx)
      (by simpa using (List.mem_filter.mp hx).2))

/-- The status route neither touches the orders table nor adds item rows
beyond the storage update. -/
theorem advance_route_state (db : DB) (oid iid : Nat) (st : String) (now : Nat)
    (it : OrderItem) (hit : findOrderItem db iid = some it) :
    (advanceItemStatus db oid iid st now).1.orders = db.orders ∧
    (advanceItemStatus db oid iid st now).1.orderItems =
      (updateOrderItemStatusS db iid st now).1.orderItems := by
  have h2 : (updateOrderItemStatusS db iid st now).2 =
      some ((fun x =>
        { x with
          status := st
          startedPreparingAt :=
            if (st == "preparing" &&
                match findOrderItem db iid with
                | some it => it.startedPreparingAt == none
                | none => false) = true
            then some now else x.startedPreparingAt }) it) := by
    simp only [updateOrderItemStatusS, hit, Option.map_some]
    rfl
  simp only [advanceItemStatus, h2]
  split
  · exact ⟨rfl, rfl⟩
  · split
    · exact ⟨rfl, rfl⟩
    · exact ⟨rfl, rfl⟩

theorem submit_preserves_inv (db : DB) (tableId : Nat) (lines : List CartLine)
    (hb : idsBounded db) (hinv : orderTotalsInv db) :
    orderTotalsInv (submitOrder db tableId lines).1 := by
  rcases submitOrder_characterization db tableId lines hb with
    ⟨newItems, hitems, hfa, hprops, horders, htab, hev⟩
  intro o hmem
  rw [horders] at hmem
  rcases List.mem_append.mp hmem with hold | hnew
  · have htot := hinv o hold
    have hoid : o.id < db.nextId := hb.1 o hold
    have hact : activeItemsOf (submitOrder db tableId lines).1 o.id =
        activeItemsOf db o.id := by
      unfold activeItemsOf orderItemsOf
      rw [hitems, List.filter_append]
      have hnil : newItems.filter (fun i => i.orderId == o.id) = [] := by
        rw [List.filter_eq_nil_iff]
        intro a ha
        have h1 := (hprops a ha).1
        simp only [h1, beq_iff_eq]
        exact fun heq => absurd heq.symm (Nat.ne_of_lt hoid)
      rw [hnil, List.append_nil]
    rw [hact]
    exact htot
  · have ho : o = { id := db.nextId, tableId := tableId, status := "pending", total := sumItems newItems } := List.mem_singleton.mp hnew
    subst ho
    have hact : activeItemsOf (submitOrder db tableId lines).1 db.nextId = newItems := by
      unfold activeItemsOf orderItemsOf
      rw [hitems, List.filter_append]
      have hnil : db.orderItems.filter (fun i => i.orderId == db.nextId) = [] := by
        rw [List.filter_eq_nil_iff]
        intro a ha
        simp [Nat.ne_of_lt (hb.2 a ha)]
      have hkeep : newItems.filter (fun i => i.orderId == db.nextId) = newItems := by
        rw [List.filter_eq_self]
        intro a ha
        simp [(hprops a ha).1]
      have hkeep2 : newItems.filter (fun i => !(i.status == "cancelled")) = newItems := by
        rw [List.filter_eq_self]
        intro a ha
        simp [(hprops a ha).2.1]
      rw [hnil, hkeep, List.nil_append, hkeep2]
    dsimp only
    rw [hact]

theorem advance_preserves_inv (db : DB) (oid iid : Nat) (st : String) (now : Nat)
    (hinv : orderTotalsInv db)
    (hnc : ∀ x ∈ db.orderItems, x.id = iid → ¬x.status = "cancelled")
    (hstc : st ≠ "cancelled") :
    orderTotalsInv (advanceItemStatus db oid iid st now).1 := by
  cases hit : findOrderItem db iid with
  | none =>
    have h2 : (updateOrderItemStatusS db iid st now).2 = none := by
      simp [updateOrderItemStatusS, hit]
    have hre : advanceItemStatus db oid iid st now =
        (db, Except.error Err.orderItemNotFound) := by
      simp only [advanceItemStatus, h2]
    rw [hre]
    exact hinv
  | some it =>
    obtain ⟨ho, hoi⟩ := advance_route_state db oid iid st now it hit
    have hmap : (advanceItemStatus db oid iid st now).1.orderItems =
        db.orderItems.map (fun x =>
          if x.id == iid then
            { x with
              status := st
              startedPreparingAt :=
                if (st == "preparing" &&
                    match findOrderItem db iid with
                    | some it => it.startedPreparingAt == none
                    | none => false) = true
                then some now else x.startedPreparingAt }
          else x) := hoi
    intro o hmem
    rw [ho] at hmem
    have htot := hinv o hmem
    have hsum : sumItems (activeItemsOf (advanceItemStatus db oid iid st now).1 o.id) =
        sumItems (activeItemsOf db o.id) := by
      unfold activeItemsOf orderItemsOf
      rw [hmap]
      apply activeSum_map_eq
      · intro x hx
        by_cases hxi : (x.id == iid) = true
        · rw [if_pos hxi]
        · rw [if_neg hxi]
      · intro x hx
        by_cases hxi : (x.id == iid) = true
        · rw [if_pos hxi]
          exact ⟨rfl, rfl⟩
        · rw [if_neg hxi]
          exact ⟨rfl, rfl⟩
      · intro x hx
        by_cases hxi : (x.id == iid) = true
        · rw [if_pos hxi]
          have hxnc : ¬x.status = "cancelled" := hnc x hx (by simpa using hxi)
          simp [beq_iff_eq, hstc, hxnc]
        · rw [if_neg hxi]
    rw [hsum]
    exact htot

theorem cancel_preserves_inv (db : DB) (oid iid : Nat)
    (hinv : orderTotalsInv db)
    (hall : ∀ x ∈ db.orderItems, x.id = iid → x.orderId = oid) :
    orderTotalsInv (cancelItem db oid iid).1 := by
  cases hit : findOrderItem db iid with
  | none =>
    have hre : cancelItem db oid iid = (db, Except.error Err.orderItemNotFound) := by
      simp only [cancelItem, hit]
    rw [hre]
    exact hinv
  | some it =>
    by_cases hcan : (it.status == "queued" || it.status == "pending") = true
    case neg =>
      have hre : cancelItem db oid iid = (db, Except.error Err.itemNotCancellable) := by
        simp only [cancelItem, hit, if_pos (by simp [hcan] : (!(it.status == "queued" ||
          it.status == "pending")) = true)]
      rw [hre]
      exact hinv
    case pos =>
      have hmap : (updateOrderItemStatusS db iid "cancelled" 0).1.orderItems =
          db.orderItems.map (fun x =>
            if x.id == iid then { x with status := "cancelled" } else x) := rfl
      have hfixoff : ∀ (k : Nat), ¬k = oid →
          (updateOrderItemStatusS db iid "cancelled" 0).1.orderItems.filter
            (fun i => i.orderId == k) =
          db.orderItems.filter (fun i => i.orderId == k) := by
        intro k hk
        rw [hmap]
        apply activeItems_map_eq_off
        · intro x hx
          by_cases hxi : (x.id == iid) = true
          · rw [if_pos hxi]
          · rw [if_neg hxi]
        · intro x hx hxo
          have hxid : ¬(x.id == iid) = true := by
            intro hxi
            have hxoid : x.orderId = oid := hall x hx (by simpa using hxi)
            exact hk (hxo.symm.trans hxoid)
          rw [if_neg hxid]
      cases hord : findOrder (updateOrderItemStatusS db iid "cancelled" 0).1 oid with
      | none =>
        have hre : cancelItem db oid iid =
            ((updateOrderItemStatusS db iid "cancelled" 0).1, Except.ok ()) := by
          simp only [cancelItem, hit,
            if_neg (show ¬(!(it.status == "queued" || it.status == "pending")) = true by
              simp [hcan]), hord]
        rw [hre]
        intro o hmem
        have hmem2 : o ∈ db.orders := hmem
        have hnid : ¬o.id = oid := by
          have hnone := List.find?_eq_none.mp
            (show (updateOrderItemStatusS db iid "cancelled" 0).1.orders.find?
              (fun x => x.id == oid) = none from hord) o hmem2
          simpa using hnone
        have htot := hinv o hmem2
        have hact : activeItemsOf (updateOrderItemStatusS db iid "cancelled" 0).1 o.id =
            activeItemsOf db o.id := by
          unfold activeItemsOf orderItemsOf
          rw [hfixoff o.id hnid]
        rw [hact]
        exact htot
      | some o2 =>
        have ho2id : o2.id = oid := by
          have := List.find?_some
            (show (updateOrderItemStatusS db iid "cancelled" 0).1.orders.find?
              (fun x => x.id == oid) = some o2 from hord)
          simpa using this
        have hre : cancelItem db oid iid =
            (broadcast
              (setOrderTotal (updateOrderItemStatusS db iid "cancelled" 0).1 o2.id
                (sumItems
                  ((orderItemsOf (updateOrderItemStatusS db iid "cancelled" 0).1 o2.id).filter
                    (fun i => !(i.status == "cancelled")))))
              (Event.orderItemCancelled o2.id), Except.ok ()) := by
          simp only [cancelItem, hit,
            if_neg (show ¬(!(it.status == "queued" || it.status == "pending")) = true by
              simp [hcan]), hord]
        rw [hre]
        intro o hmem
        have hmem2 : o ∈ db.orders.map (fun y => if y.id == o2.id then { y with total := sumItems ((orderItemsOf (updateOrderItemStatusS db iid "cancelled" 0).1 o2.id).filter (fun i => !(i.status == "cancelled"))) } else y) := hmem
        rcases List.mem_map.mp hmem2 with ⟨y, hymem, hy⟩
        by_cases hyid : (y.id == o2.id) = true
        · rw [if_pos hyid] at hy
          rw [← hy]
          dsimp only
          rw [show y.id = o2.id from by simpa using hyid]
          rfl
        · rw [if_neg hyid] at hy
          have hynid : ¬y.id = oid := by
            intro h
            exact hyid (by simp [h, ho2id])
          have htot := hinv y hymem
          have hact : activeItemsOf
              (broadcast
                (setOrderTotal (updateOrderItemStatusS db iid "cancelled" 0).1 o2.id
                  (sumItems
                    ((orderItemsOf (updateOrderItemStatusS db iid "cancelled" 0).1 o2.id).filter
                      (fun i => !(i.status == "cancelled")))))
                (Event.orderItemCancelled o2.id)) y.id = activeItemsOf db y.id := by
            unfold activeItemsOf orderItemsOf
            show ((updateOrderItemStatusS db iid "cancelled" 0).1.orderItems.filter _).filter _
              = _
            rw [hfixoff y.id hynid]
          rw [← hy, hact]
          exact htot

/-- C3: the stored-total invariant — every order's total equals the sum of
quantity × snapshot price over its non-cancelled items — is established by
order submission and preserved by a forward item-status advance (one that
neither leaves nor enters the cancelled state) and by item cancellation,
which recomputes the affected order's total from its surviving items. -/
theorem c3_order_total_invariant (db : DB) (tableId oid iid now : Nat) (st : String)
    (lines : List CartLine) (hinv : orderTotalsInv db) :
    (idsBounded db → orderTotalsInv (submitOrder db tableId lines).1) ∧
    ((∀ x ∈ db.orderItems, x.id = iid → ¬x.status = "cancelled") → st ≠ "cancelled" →
      orderTotalsInv (advanceItemStatus db oid iid st now).1) ∧
    ((∀ x ∈ db.orderItems, x.id = iid → x.orderId = oid) →
      orderTotalsInv (cancelItem db oid iid).1) :=
  ⟨fun hb => submit_preserves_inv db tableId lines hb hinv,
   fun hnc hstc => advance_preserves_inv db oid iid st now hinv hnc hstc,
   fun hall => cancel_preserves_inv db oid iid hinv hall⟩

theorem c3_order_total_invariant_witness :
    (idsBounded dbC7 → orderTotalsInv (submitOrder dbC7 1
      [{ menuItemId := 1, quantity := 2 }]).1) ∧
    ((∀ x ∈ dbC7.orderItems, x.id = 20 → ¬x.status = "cancelled") → "preparing" ≠ "cancelled" →
      orderTotalsInv (advanceItemStatus dbC7 10 20 "preparing" 5).1) ∧
    ((∀ x ∈ dbC7.orderItems, x.id = 20 → x.orderId = 10) →
      orderTotalsInv (cancelItem dbC7 10 20).1) :=
  c3_order_total_invariant dbC7 1 10 20 5 "preparing" [{ menuItemId := 1, quantity := 2 }]
    (by intro o hoo
        rcases List.mem_cons.mp hoo with rfl | h2
        · decide
        · cases h2)

end Resto
